import Mathlib

/-
  Verification of the browser cookie extraction module of trench
  (src/unnamed/part_007).

  Modelling conventions:
  * JS strings and Buffers are modelled as `List Nat`, one entry per byte
    (for strings: the UTF-8 code units).  All byte values are kept below 256.
  * The AES-128-CBC primitive used through createDecipheriv, and the
    PBKDF2-HMAC-SHA1 primitive used through pbkdf2Sync, are library code that
    is not part of the repository; they are embedded here by their standard
    definitions (FIPS-197, RFC 2104, RFC 8018) and sanity-checked against
    published test vectors below.
  * Filesystem, keychain and sqlite access are modelled by explicit
    environment records: an oracle field per external query the code makes.
-/

set_option maxRecDepth 1000000
set_option maxHeartbeats 1000000

/-! ## Byte list utilities -/

/-- JS Buffer bytes are below 256. -/
def ByteOk (l : List Nat) : Prop := ∀ b ∈ l, b < 256

instance : DecidablePred ByteOk := fun l => inferInstanceAs (Decidable (∀ b ∈ l, b < 256))

/-- Substring test on byte lists: JS String.prototype.includes (and the
    semantics of a SQL LIKE pattern enclosed in percent signs, for the
    wildcard-free needles used by the module). -/
def containsSub (hay needle : List Nat) : Bool :=
  match hay with
  | [] => needle.isEmpty
  | _ :: t => needle.isPrefixOf hay || containsSub t needle

/-- Node Buffer.readUInt32LE: little-endian 32-bit read, RangeError
    (modelled as none) when fewer than 4 bytes are available at off. -/
def readU32LE (data : List Nat) (off : Nat) : Option Nat :=
  if off + 4 ≤ data.length then
    some (data.getD off 0 + 256 * data.getD (off + 1) 0 +
      65536 * data.getD (off + 2) 0 + 16777216 * data.getD (off + 3) 0)
  else none

/-- Node Buffer.readUInt32BE: big-endian 32-bit read, RangeError
    (modelled as none) when fewer than 4 bytes are available at off. -/
def readU32BE (data : List Nat) (off : Nat) : Option Nat :=
  if off + 4 ≤ data.length then
    some (16777216 * data.getD off 0 + 65536 * data.getD (off + 1) 0 +
      256 * data.getD (off + 2) 0 + data.getD (off + 3) 0)
  else none

/-- Pointwise xor of two byte lists (zip semantics, truncating at the
    shorter list). -/
def zipXor (a b : List Nat) : List Nat := List.zipWith (fun x y => x ^^^ y) a b

/-- Split a byte list into consecutive 16-byte blocks; a final fragment of
    fewer than 16 bytes is dropped (callers only use it on lists whose
    length is a multiple of 16). -/
def chunks16 : List Nat → List (List Nat)
  | b0 :: b1 :: b2 :: b3 :: b4 :: b5 :: b6 :: b7 ::
    b8 :: b9 :: b10 :: b11 :: b12 :: b13 :: b14 :: b15 :: rest =>
    [b0, b1, b2, b3, b4, b5, b6, b7, b8, b9, b10, b11, b12, b13, b14, b15] ::
      chunks16 rest
  | _ => []

/-! ## AES-128 (FIPS-197), the cipher behind createDecipheriv aes-128-cbc -/

/-- AES S-box. -/
def SBOX : List Nat := [
  99, 124, 119, 123, 242, 107, 111, 197, 48, 1, 103, 43, 254, 215, 171, 118,
  202, 130, 201, 125, 250, 89, 71, 240, 173, 212, 162, 175, 156, 164, 114, 192,
  183, 253, 147, 38, 54, 63, 247, 204, 52, 165, 229, 241, 113, 216, 49, 21,
  4, 199, 35, 195, 24, 150, 5, 154, 7, 18, 128, 226, 235, 39, 178, 117,
  9, 131, 44, 26, 27, 110, 90, 160, 82, 59, 214, 179, 41, 227, 47, 132,
  83, 209, 0, 237, 32, 252, 177, 91, 106, 203, 190, 57, 74, 76, 88, 207,
  208, 239, 170, 251, 67, 77, 51, 133, 69, 249, 2, 127, 80, 60, 159, 168,
  81, 163, 64, 143, 146, 157, 56, 245, 188, 182, 218, 33, 16, 255, 243, 210,
  205, 12, 19, 236, 95, 151, 68, 23, 196, 167, 126, 61, 100, 93, 25, 115,
  96, 129, 79, 220, 34, 42, 144, 136, 70, 238, 184, 20, 222, 94, 11, 219,
  224, 50, 58, 10, 73, 6, 36, 92, 194, 211, 172, 98, 145, 149, 228, 121,
  231, 200, 55, 109, 141, 213, 78, 169, 108, 86, 244, 234, 101, 122, 174, 8,
  186, 120, 37, 46, 28, 166, 180, 198, 232, 221, 116, 31, 75, 189, 139, 138,
  112, 62, 181, 102, 72, 3, 246, 14, 97, 53, 87, 185, 134, 193, 29, 158,
  225, 248, 152, 17, 105, 217, 142, 148, 155, 30, 135, 233, 206, 85, 40, 223,
  140, 161, 137, 13, 191, 230, 66, 104, 65, 153, 45, 15, 176, 84, 187, 22]

/-- AES inverse S-box. -/
def INVSBOX : List Nat := [
  82, 9, 106, 213, 48, 54, 165, 56, 191, 64, 163, 158, 129, 243, 215, 251,
  124, 227, 57, 130, 155, 47, 255, 135, 52, 142, 67, 68, 196, 222, 233, 203,
  84, 123, 148, 50, 166, 194, 35, 61, 238, 76, 149, 11, 66, 250, 195, 78,
  8, 46, 161, 102, 40, 217, 36, 178, 118, 91, 162, 73, 109, 139, 209, 37,
  114, 248, 246, 100, 134, 104, 152, 22, 212, 164, 92, 204, 93, 101, 182, 146,
  108, 112, 72, 80, 253, 237, 185, 218, 94, 21, 70, 87, 167, 141, 157, 132,
  144, 216, 171, 0, 140, 188, 211, 10, 247, 228, 88, 5, 184, 179, 69, 6,
  208, 44, 30, 143, 202, 63, 15, 2, 193, 175, 189, 3, 1, 19, 138, 107,
  58, 145, 17, 65, 79, 103, 220, 234, 151, 242, 207, 206, 240, 180, 230, 115,
  150, 172, 116, 34, 231, 173, 53, 133, 226, 249, 55, 232, 28, 117, 223, 110,
  71, 241, 26, 113, 29, 41, 197, 137, 111, 183, 98, 14, 170, 24, 190, 27,
  252, 86, 62, 75, 198, 210, 121, 32, 154, 219, 192, 254, 120, 205, 90, 244,
  31, 221, 168, 51, 136, 7, 199, 49, 177, 18, 16, 89, 39, 128, 236, 95,
  96, 81, 127, 169, 25, 181, 74, 13, 45, 229, 122, 159, 147, 201, 156, 239,
  160, 224, 59, 77, 174, 42, 245, 176, 200, 235, 187, 60, 131, 83, 153, 97,
  23, 43, 4, 126, 186, 119, 214, 38, 225, 105, 20, 99, 85, 33, 12, 125]

def sbox (b : Nat) : Nat := SBOX.getD b 0

def invSbox (b : Nat) : Nat := INVSBOX.getD b 0

/-- Multiplication by x in GF(2^8) mod the AES polynomial, on a value
    already below 256. -/
def xtime0 (b : Nat) : Nat :=
  (2 * b) % 256 ^^^ (if 128 ≤ b then 27 else 0)

/-- Multiplication by x in GF(2^8); the argument is first reduced to a
    byte, which makes the function total and, on bytes, the standard one. -/
def xtime (b : Nat) : Nat := xtime0 (b % 256)

def mul2 (b : Nat) : Nat := xtime b
def mul3 (b : Nat) : Nat := xtime b ^^^ (b % 256)
def mul9 (b : Nat) : Nat := xtime (xtime (xtime b)) ^^^ (b % 256)
def mul11 (b : Nat) : Nat := xtime (xtime (xtime b) ^^^ (b % 256)) ^^^ (b % 256)
def mul13 (b : Nat) : Nat := xtime (xtime (xtime b ^^^ (b % 256))) ^^^ (b % 256)
def mul14 (b : Nat) : Nat := xtime (xtime (xtime b ^^^ (b % 256)) ^^^ (b % 256))

def subBytes (s : List Nat) : List Nat := s.map sbox

def invSubBytes (s : List Nat) : List Nat := s.map invSbox

/-- AES ShiftRows on the flat column-major 16-byte state. -/
def shiftRows : List Nat → List Nat
  | [a0, a1, a2, a3, a4, a5, a6, a7, a8, a9, a10, a11, a12, a13, a14, a15] =>
    [a0, a5, a10, a15, a4, a9, a14, a3, a8, a13, a2, a7, a12, a1, a6, a11]
  | l => l

/-- AES InvShiftRows on the flat column-major 16-byte state. -/
def invShiftRows : List Nat → List Nat
  | [a0, a1, a2, a3, a4, a5, a6, a7, a8, a9, a10, a11, a12, a13, a14, a15] =>
    [a0, a13, a10, a7, a4, a1, a14, a11, a8, a5, a2, a15, a12, a9, a6, a3]
  | l => l

/-- MixColumns on a single column. -/
def mixCol (a b c d : Nat) : List Nat :=
  [mul2 a ^^^ mul3 b ^^^ c ^^^ d,
   a ^^^ mul2 b ^^^ mul3 c ^^^ d,
   a ^^^ b ^^^ mul2 c ^^^ mul3 d,
   mul3 a ^^^ b ^^^ c ^^^ mul2 d]

/-- InvMixColumns on a single column. -/
def invMixCol (a b c d : Nat) : List Nat :=
  [mul14 a ^^^ mul11 b ^^^ mul13 c ^^^ mul9 d,
   mul9 a ^^^ mul14 b ^^^ mul11 c ^^^ mul13 d,
   mul13 a ^^^ mul9 b ^^^ mul14 c ^^^ mul11 d,
   mul11 a ^^^ mul13 b ^^^ mul9 c ^^^ mul14 d]

def mixColumns : List Nat → List Nat
  | [a0, a1, a2, a3, a4, a5, a6, a7, a8, a9, a10, a11, a12, a13, a14, a15] =>
    mixCol a0 a1 a2 a3 ++ mixCol a4 a5 a6 a7 ++
      mixCol a8 a9 a10 a11 ++ mixCol a12 a13 a14 a15
  | l => l

def invMixColumns : List Nat → List Nat
  | [a0, a1, a2, a3, a4, a5, a6, a7, a8, a9, a10, a11, a12, a13, a14, a15] =>
    invMixCol a0 a1 a2 a3 ++ invMixCol a4 a5 a6 a7 ++
      invMixCol a8 a9 a10 a11 ++ invMixCol a12 a13 a14 a15
  | l => l

def addRoundKey (s k : List Nat) : List Nat := zipXor s k

/-- One step of the AES-128 key schedule: from a 16-byte round key and a
    round constant to the next round key. -/
def nextKey : List Nat → Nat → List Nat
  | [k0, k1, k2, k3, k4, k5, k6, k7, k8, k9, k10, k11, k12, k13, k14, k15], rc =>
    let w0 := [k0 ^^^ (sbox k13 ^^^ rc), k1 ^^^ sbox k14, k2 ^^^ sbox k15, k3 ^^^ sbox k12]
    let w1 := zipXor [k4, k5, k6, k7] w0
    let w2 := zipXor [k8, k9, k10, k11] w1
    let w3 := zipXor [k12, k13, k14, k15] w2
    w0 ++ w1 ++ w2 ++ w3
  | l, _ => l

def encRound (k s : List Nat) : List Nat :=
  addRoundKey (mixColumns (shiftRows (subBytes s))) k

def decRound (k s : List Nat) : List Nat :=
  invSubBytes (invShiftRows (invMixColumns (addRoundKey s k)))

/-- The nine full encryption rounds, folded left over the round keys. -/
def encRounds (ks : List (List Nat)) (s : List Nat) : List Nat :=
  ks.foldl (fun st k => encRound k st) s

/-- The nine full decryption rounds, folded left over the round keys
    (given in reverse order). -/
def decRounds (ks : List (List Nat)) (s : List Nat) : List Nat :=
  ks.foldl (fun st k => decRound k st) s

def encryptBlock (key block : List Nat) : List Nat :=
  let k1 := nextKey key 1
  let k2 := nextKey k1 2
  let k3 := nextKey k2 4
  let k4 := nextKey k3 8
  let k5 := nextKey k4 16
  let k6 := nextKey k5 32
  let k7 := nextKey k6 64
  let k8 := nextKey k7 128
  let k9 := nextKey k8 27
  let k10 := nextKey k9 54
  let s := encRounds [k1, k2, k3, k4, k5, k6, k7, k8, k9] (addRoundKey block key)
  addRoundKey (shiftRows (subBytes s)) k10

def decryptBlock (key block : List Nat) : List Nat :=
  let k1 := nextKey key 1
  let k2 := nextKey k1 2
  let k3 := nextKey k2 4
  let k4 := nextKey k3 8
  let k5 := nextKey k4 16
  let k6 := nextKey k5 32
  let k7 := nextKey k6 64
  let k8 := nextKey k7 128
  let k9 := nextKey k8 27
  let k10 := nextKey k9 54
  let s := invSubBytes (invShiftRows (addRoundKey block k10))
  addRoundKey (decRounds [k9, k8, k7, k6, k5, k4, k3, k2, k1] s) key

/-- CBC encryption over a list of 16-byte blocks, with chaining value prev. -/
def cbcEncBlocks (key prev : List Nat) : List (List Nat) → List (List Nat)
  | [] => []
  | b :: bs =>
    let c := encryptBlock key (zipXor b prev)
    c :: cbcEncBlocks key c bs

/-- CBC decryption over a list of 16-byte blocks, with chaining value prev. -/
def cbcDecBlocks (key prev : List Nat) : List (List Nat) → List (List Nat)
  | [] => []
  | c :: cs => zipXor (decryptBlock key c) prev :: cbcDecBlocks key c cs

set_option maxRecDepth 100000 in
/-- FIPS-197 appendix C.1 encryption test vector. -/
theorem aes_fips197_enc :
    encryptBlock [0, 1, 2, 3, 4, 5, 6, 7, 8, 9, 10, 11, 12, 13, 14, 15]
      [0, 17, 34, 51, 68, 85, 102, 119, 136, 153, 170, 187, 204, 221, 238, 255] =
    [105, 196, 224, 216, 106, 123, 4, 48, 216, 205, 183, 128, 112, 180, 197, 90] := by
  decide

set_option maxRecDepth 100000 in
/-- FIPS-197 appendix C.1 decryption test vector. -/
theorem aes_fips197_dec :
    decryptBlock [0, 1, 2, 3, 4, 5, 6, 7, 8, 9, 10, 11, 12, 13, 14, 15]
      [105, 196, 224, 216, 106, 123, 4, 48, 216, 205, 183, 128, 112, 180, 197, 90] =
    [0, 17, 34, 51, 68, 85, 102, 119, 136, 153, 170, 187, 204, 221, 238, 255] := by
  decide

/-! ## GF(2^8) linearity facts -/

theorem xor_lt_256 {a b : Nat} (ha : a < 256) (hb : b < 256) : a ^^^ b < 256 := by
  have h : (256 : Nat) = 2 ^ 8 := by norm_num
  rw [h] at ha hb ⊢
  exact Nat.xor_lt_two_pow ha hb

theorem mod256_xor (a b : Nat) : (a ^^^ b) % 256 = a % 256 ^^^ b % 256 := by
  have h : (256 : Nat) = 2 ^ 8 := by norm_num
  rw [h]
  apply Nat.eq_of_testBit_eq
  intro i
  simp only [Nat.testBit_mod_two_pow, Nat.testBit_xor]
  cases decide (i < 8) <;> simp

theorem testBit7_eq (a : Nat) (h : a < 256) : a.testBit 7 = decide (128 ≤ a) := by
  rw [Nat.testBit_to_div_mod]
  simp only [decide_eq_decide]
  omega

theorem mul_two_xor (a b : Nat) : 2 * (a ^^^ b) = 2 * a ^^^ 2 * b := by
  have h : ∀ c : Nat, 2 * c = c <<< 1 := by
    intro c; rw [Nat.shiftLeft_eq]; ring
  rw [h, h, h]
  apply Nat.eq_of_testBit_eq
  intro i
  simp only [Nat.testBit_shiftLeft, Nat.testBit_xor]
  cases decide (1 ≤ i) <;> simp

theorem xtime0_xor (x y : Nat) (hx : x < 256) (hy : y < 256) :
    xtime0 (x ^^^ y) = xtime0 x ^^^ xtime0 y := by
  unfold xtime0
  have hxy : x ^^^ y < 256 := xor_lt_256 hx hy
  have hb : (x ^^^ y).testBit 7 = ((x.testBit 7).xor (y.testBit 7)) := by
    simp [Nat.testBit_xor]
  rw [mul_two_xor, mod256_xor]
  by_cases h1 : 128 ≤ x <;> by_cases h2 : 128 ≤ y
  · have hx7 : x.testBit 7 = true := by simp [testBit7_eq x hx, h1]
    have hy7 : y.testBit 7 = true := by simp [testBit7_eq y hy, h2]
    have hno : ¬ 128 ≤ (x ^^^ y) := by
      have := testBit7_eq _ hxy
      rw [hb, hx7, hy7] at this
      simp at this
      omega
    simp only [if_pos h1, if_pos h2, if_neg hno]
    rw [Nat.xor_zero, Nat.xor_assoc, Nat.xor_comm (2 * y % 256), ← Nat.xor_assoc,
      ← Nat.xor_assoc, Nat.xor_assoc _ 27 27]
    simp
  · have hx7 : x.testBit 7 = true := by simp [testBit7_eq x hx, h1]
    have hy7 : y.testBit 7 = false := by simp [testBit7_eq y hy, h2]
    have hc : 128 ≤ (x ^^^ y) := by
      have := testBit7_eq _ hxy
      rw [hb, hx7, hy7] at this
      simp at this
      exact this
    simp only [if_pos h1, if_pos hc, if_neg h2]
    rw [Nat.xor_zero]
    ac_rfl
  · have hx7 : x.testBit 7 = false := by simp [testBit7_eq x hx, h1]
    have hy7 : y.testBit 7 = true := by simp [testBit7_eq y hy, h2]
    have hc : 128 ≤ (x ^^^ y) := by
      have := testBit7_eq _ hxy
      rw [hb, hx7, hy7] at this
      simp at this
      exact this
    simp only [if_pos hc, if_neg h1, if_pos h2]
    rw [Nat.xor_zero]
    ac_rfl
  · have hx7 : x.testBit 7 = false := by simp [testBit7_eq x hx, h1]
    have hy7 : y.testBit 7 = false := by simp [testBit7_eq y hy, h2]
    have hno : ¬ 128 ≤ (x ^^^ y) := by
      have := testBit7_eq _ hxy
      rw [hb, hx7, hy7] at this
      simp at this
      omega
    simp only [if_neg h1, if_neg h2, if_neg hno]
    simp

theorem xtime_xor (x y : Nat) : xtime (x ^^^ y) = xtime x ^^^ xtime y := by
  unfold xtime
  rw [mod256_xor]
  exact xtime0_xor _ _ (Nat.mod_lt x (by norm_num)) (Nat.mod_lt y (by norm_num))

theorem xtime_lt (b : Nat) : xtime b < 256 := by
  unfold xtime xtime0
  apply xor_lt_256 (Nat.mod_lt _ (by norm_num))
  split <;> norm_num

theorem mul2_xor (x y : Nat) : mul2 (x ^^^ y) = mul2 x ^^^ mul2 y := xtime_xor x y

theorem mul3_xor (x y : Nat) : mul3 (x ^^^ y) = mul3 x ^^^ mul3 y := by
  simp only [mul3, xtime_xor, mod256_xor]
  ac_rfl

theorem mul9_xor (x y : Nat) : mul9 (x ^^^ y) = mul9 x ^^^ mul9 y := by
  simp only [mul9, xtime_xor, mod256_xor]
  ac_rfl

theorem mul11_xor (x y : Nat) : mul11 (x ^^^ y) = mul11 x ^^^ mul11 y := by
  simp only [mul11, xtime_xor, mod256_xor]
  ac_rfl

theorem mul13_xor (x y : Nat) : mul13 (x ^^^ y) = mul13 x ^^^ mul13 y := by
  simp only [mul13, xtime_xor, mod256_xor]
  ac_rfl

theorem mul14_xor (x y : Nat) : mul14 (x ^^^ y) = mul14 x ^^^ mul14 y := by
  simp only [mul14, xtime_xor, mod256_xor]
  ac_rfl

theorem mul2_lt (b : Nat) : mul2 b < 256 := xtime_lt b

theorem mul3_lt (b : Nat) : mul3 b < 256 :=
  xor_lt_256 (xtime_lt b) (Nat.mod_lt b (by norm_num))

theorem mul9_lt (b : Nat) : mul9 b < 256 :=
  xor_lt_256 (xtime_lt _) (Nat.mod_lt b (by norm_num))

theorem mul11_lt (b : Nat) : mul11 b < 256 :=
  xor_lt_256 (xtime_lt _) (Nat.mod_lt b (by norm_num))

theorem mul13_lt (b : Nat) : mul13 b < 256 :=
  xor_lt_256 (xtime_lt _) (Nat.mod_lt b (by norm_num))

theorem mul14_lt (b : Nat) : mul14 b < 256 := xtime_lt _

theorem sbox_lt : ∀ b < 256, sbox b < 256 := by decide

theorem invSbox_lt : ∀ b < 256, invSbox b < 256 := by decide

set_option maxRecDepth 10000 in
theorem invSbox_sbox : ∀ b < 256, invSbox (sbox b) = b := by decide

/-! ## InvMixColumns inverts MixColumns: per-variable coefficient identities
    (the GF(2^8) matrix products evaluated bytewise) -/

theorem coef0a : ∀ x < 256, mul14 (mul2 x) ^^^ mul11 x ^^^ mul13 x ^^^ mul9 (mul3 x) = x := by
  decide

theorem coef0b : ∀ x < 256, mul14 (mul3 x) ^^^ mul11 (mul2 x) ^^^ mul13 x ^^^ mul9 x = 0 := by
  decide

theorem coef0c : ∀ x < 256, mul14 x ^^^ mul11 (mul3 x) ^^^ mul13 (mul2 x) ^^^ mul9 x = 0 := by
  decide

theorem coef0d : ∀ x < 256, mul14 x ^^^ mul11 x ^^^ mul13 (mul3 x) ^^^ mul9 (mul2 x) = 0 := by
  decide

theorem coef1a : ∀ x < 256, mul9 (mul2 x) ^^^ mul14 x ^^^ mul11 x ^^^ mul13 (mul3 x) = 0 := by
  decide

theorem coef1b : ∀ x < 256, mul9 (mul3 x) ^^^ mul14 (mul2 x) ^^^ mul11 x ^^^ mul13 x = x := by
  decide

theorem coef1c : ∀ x < 256, mul9 x ^^^ mul14 (mul3 x) ^^^ mul11 (mul2 x) ^^^ mul13 x = 0 := by
  decide

theorem coef1d : ∀ x < 256, mul9 x ^^^ mul14 x ^^^ mul11 (mul3 x) ^^^ mul13 (mul2 x) = 0 := by
  decide

theorem coef2a : ∀ x < 256, mul13 (mul2 x) ^^^ mul9 x ^^^ mul14 x ^^^ mul11 (mul3 x) = 0 := by
  decide

theorem coef2b : ∀ x < 256, mul13 (mul3 x) ^^^ mul9 (mul2 x) ^^^ mul14 x ^^^ mul11 x = 0 := by
  decide

theorem coef2c : ∀ x < 256, mul13 x ^^^ mul9 (mul3 x) ^^^ mul14 (mul2 x) ^^^ mul11 x = x := by
  decide

theorem coef2d : ∀ x < 256, mul13 x ^^^ mul9 x ^^^ mul14 (mul3 x) ^^^ mul11 (mul2 x) = 0 := by
  decide

theorem coef3a : ∀ x < 256, mul11 (mul2 x) ^^^ mul13 x ^^^ mul9 x ^^^ mul14 (mul3 x) = 0 := by
  decide

theorem coef3b : ∀ x < 256, mul11 (mul3 x) ^^^ mul13 (mul2 x) ^^^ mul9 x ^^^ mul14 x = 0 := by
  decide

theorem coef3c : ∀ x < 256, mul11 x ^^^ mul13 (mul3 x) ^^^ mul9 (mul2 x) ^^^ mul14 x = 0 := by
  decide

theorem coef3d : ∀ x < 256, mul11 x ^^^ mul13 x ^^^ mul9 (mul3 x) ^^^ mul14 (mul2 x) = x := by
  decide

/-- One column of InvMixColumns applied to one column of MixColumns, entry 0. -/
theorem invMix_entry0 (a b c d : Nat) (ha : a < 256) (hb : b < 256) (hc : c < 256)
    (hd : d < 256) :
    mul14 (mul2 a ^^^ mul3 b ^^^ c ^^^ d) ^^^ mul11 (a ^^^ mul2 b ^^^ mul3 c ^^^ d) ^^^
      mul13 (a ^^^ b ^^^ mul2 c ^^^ mul3 d) ^^^ mul9 (mul3 a ^^^ b ^^^ c ^^^ mul2 d) = a := by
  simp only [mul14_xor, mul11_xor, mul13_xor, mul9_xor]
  calc mul14 (mul2 a) ^^^ mul14 (mul3 b) ^^^ mul14 c ^^^ mul14 d ^^^
        (mul11 a ^^^ mul11 (mul2 b) ^^^ mul11 (mul3 c) ^^^ mul11 d) ^^^
        (mul13 a ^^^ mul13 b ^^^ mul13 (mul2 c) ^^^ mul13 (mul3 d)) ^^^
        (mul9 (mul3 a) ^^^ mul9 b ^^^ mul9 c ^^^ mul9 (mul2 d)) =
      (mul14 (mul2 a) ^^^ mul11 a ^^^ mul13 a ^^^ mul9 (mul3 a)) ^^^
        ((mul14 (mul3 b) ^^^ mul11 (mul2 b) ^^^ mul13 b ^^^ mul9 b) ^^^
          ((mul14 c ^^^ mul11 (mul3 c) ^^^ mul13 (mul2 c) ^^^ mul9 c) ^^^
            (mul14 d ^^^ mul11 d ^^^ mul13 (mul3 d) ^^^ mul9 (mul2 d)))) := by ac_rfl
    _ = a := by rw [coef0a a ha, coef0b b hb, coef0c c hc, coef0d d hd]; simp

/-- One column of InvMixColumns applied to one column of MixColumns, entry 1. -/
theorem invMix_entry1 (a b c d : Nat) (ha : a < 256) (hb : b < 256) (hc : c < 256)
    (hd : d < 256) :
    mul9 (mul2 a ^^^ mul3 b ^^^ c ^^^ d) ^^^ mul14 (a ^^^ mul2 b ^^^ mul3 c ^^^ d) ^^^
      mul11 (a ^^^ b ^^^ mul2 c ^^^ mul3 d) ^^^ mul13 (mul3 a ^^^ b ^^^ c ^^^ mul2 d) = b := by
  simp only [mul14_xor, mul11_xor, mul13_xor, mul9_xor]
  calc mul9 (mul2 a) ^^^ mul9 (mul3 b) ^^^ mul9 c ^^^ mul9 d ^^^
        (mul14 a ^^^ mul14 (mul2 b) ^^^ mul14 (mul3 c) ^^^ mul14 d) ^^^
        (mul11 a ^^^ mul11 b ^^^ mul11 (mul2 c) ^^^ mul11 (mul3 d)) ^^^
        (mul13 (mul3 a) ^^^ mul13 b ^^^ mul13 c ^^^ mul13 (mul2 d)) =
      (mul9 (mul2 a) ^^^ mul14 a ^^^ mul11 a ^^^ mul13 (mul3 a)) ^^^
        ((mul9 (mul3 b) ^^^ mul14 (mul2 b) ^^^ mul11 b ^^^ mul13 b) ^^^
          ((mul9 c ^^^ mul14 (mul3 c) ^^^ mul11 (mul2 c) ^^^ mul13 c) ^^^
            (mul9 d ^^^ mul14 d ^^^ mul11 (mul3 d) ^^^ mul13 (mul2 d)))) := by ac_rfl
    _ = b := by rw [coef1a a ha, coef1b b hb, coef1c c hc, coef1d d hd]; simp

/-- One column of InvMixColumns applied to one column of MixColumns, entry 2. -/
theorem invMix_entry2 (a b c d : Nat) (ha : a < 256) (hb : b < 256) (hc : c < 256)
    (hd : d < 256) :
    mul13 (mul2 a ^^^ mul3 b ^^^ c ^^^ d) ^^^ mul9 (a ^^^ mul2 b ^^^ mul3 c ^^^ d) ^^^
      mul14 (a ^^^ b ^^^ mul2 c ^^^ mul3 d) ^^^ mul11 (mul3 a ^^^ b ^^^ c ^^^ mul2 d) = c := by
  simp only [mul14_xor, mul11_xor, mul13_xor, mul9_xor]
  calc mul13 (mul2 a) ^^^ mul13 (mul3 b) ^^^ mul13 c ^^^ mul13 d ^^^
        (mul9 a ^^^ mul9 (mul2 b) ^^^ mul9 (mul3 c) ^^^ mul9 d) ^^^
        (mul14 a ^^^ mul14 b ^^^ mul14 (mul2 c) ^^^ mul14 (mul3 d)) ^^^
        (mul11 (mul3 a) ^^^ mul11 b ^^^ mul11 c ^^^ mul11 (mul2 d)) =
      (mul13 (mul2 a) ^^^ mul9 a ^^^ mul14 a ^^^ mul11 (mul3 a)) ^^^
        ((mul13 (mul3 b) ^^^ mul9 (mul2 b) ^^^ mul14 b ^^^ mul11 b) ^^^
          ((mul13 c ^^^ mul9 (mul3 c) ^^^ mul14 (mul2 c) ^^^ mul11 c) ^^^
            (mul13 d ^^^ mul9 d ^^^ mul14 (mul3 d) ^^^ mul11 (mul2 d)))) := by ac_rfl
    _ = c := by rw [coef2a a ha, coef2b b hb, coef2c c hc, coef2d d hd]; simp

/-- One column of InvMixColumns applied to one column of MixColumns, entry 3. -/
theorem invMix_entry3 (a b c d : Nat) (ha : a < 256) (hb : b < 256) (hc : c < 256)
    (hd : d < 256) :
    mul11 (mul2 a ^^^ mul3 b ^^^ c ^^^ d) ^^^ mul13 (a ^^^ mul2 b ^^^ mul3 c ^^^ d) ^^^
      mul9 (a ^^^ b ^^^ mul2 c ^^^ mul3 d) ^^^ mul14 (mul3 a ^^^ b ^^^ c ^^^ mul2 d) = d := by
  simp only [mul14_xor, mul11_xor, mul13_xor, mul9_xor]
  calc mul11 (mul2 a) ^^^ mul11 (mul3 b) ^^^ mul11 c ^^^ mul11 d ^^^
        (mul13 a ^^^ mul13 (mul2 b) ^^^ mul13 (mul3 c) ^^^ mul13 d) ^^^
        (mul9 a ^^^ mul9 b ^^^ mul9 (mul2 c) ^^^ mul9 (mul3 d)) ^^^
        (mul14 (mul3 a) ^^^ mul14 b ^^^ mul14 c ^^^ mul14 (mul2 d)) =
      (mul11 (mul2 a) ^^^ mul13 a ^^^ mul9 a ^^^ mul14 (mul3 a)) ^^^
        ((mul11 (mul3 b) ^^^ mul13 (mul2 b) ^^^ mul9 b ^^^ mul14 b) ^^^
          ((mul11 c ^^^ mul13 (mul3 c) ^^^ mul9 (mul2 c) ^^^ mul14 c) ^^^
            (mul11 d ^^^ mul13 d ^^^ mul9 (mul3 d) ^^^ mul14 (mul2 d)))) := by ac_rfl
    _ = d := by rw [coef3a a ha, coef3b b hb, coef3c c hc, coef3d d hd]; simp

/-- InvMixColumns inverts MixColumns on one column of bytes. -/
theorem invMixCol_mixCol (a b c d : Nat) (ha : a < 256) (hb : b < 256) (hc : c < 256)
    (hd : d < 256) :
    invMixCol (mul2 a ^^^ mul3 b ^^^ c ^^^ d) (a ^^^ mul2 b ^^^ mul3 c ^^^ d)
      (a ^^^ b ^^^ mul2 c ^^^ mul3 d) (mul3 a ^^^ b ^^^ c ^^^ mul2 d) = [a, b, c, d] := by
  simp only [invMixCol]
  rw [invMix_entry0 a b c d ha hb hc hd, invMix_entry1 a b c d ha hb hc hd,
    invMix_entry2 a b c d ha hb hc hd, invMix_entry3 a b c d ha hb hc hd]

/-! ## State invariants and inverse lemmas at the 16-byte state level -/

/-- A well-formed AES state or round key: 16 bytes, each below 256. -/
def Good (s : List Nat) : Prop := s.length = 16 ∧ ByteOk s

instance : DecidablePred Good := fun l =>
  inferInstanceAs (Decidable (l.length = 16 ∧ ByteOk l))

theorem byteok_zipXor : ∀ a b : List Nat, ByteOk a → ByteOk b → ByteOk (zipXor a b)
  | [], _, _, _ => by intro x hx; simp [zipXor] at hx
  | _ :: _, [], _, _ => by intro x hx; simp [zipXor] at hx
  | h :: t, h2 :: t2, ha, hb => by
    intro x hx
    simp only [zipXor, List.zipWith_cons_cons, List.mem_cons] at hx
    rcases hx with rfl | hx
    · exact xor_lt_256 (ha h (by simp)) (hb h2 (by simp))
    · exact byteok_zipXor t t2 (fun y hy => ha y (by simp [hy]))
        (fun y hy => hb y (by simp [hy])) x hx

theorem good_addRoundKey {s k : List Nat} (hs : Good s) (hk : Good k) :
    Good (addRoundKey s k) := by
  constructor
  · simp [addRoundKey, zipXor, hs.1, hk.1]
  · exact byteok_zipXor s k hs.2 hk.2

theorem good_subBytes {s : List Nat} (hs : Good s) : Good (subBytes s) := by
  constructor
  · simp [subBytes, hs.1]
  · intro x hx
    simp only [subBytes, List.mem_map] at hx
    obtain ⟨y, hy, rfl⟩ := hx
    exact sbox_lt y (hs.2 y hy)

theorem good_invSubBytes {s : List Nat} (hs : Good s) : Good (invSubBytes s) := by
  constructor
  · simp [invSubBytes, hs.1]
  · intro x hx
    simp only [invSubBytes, List.mem_map] at hx
    obtain ⟨y, hy, rfl⟩ := hx
    exact invSbox_lt y (hs.2 y hy)

theorem good_shiftRows {s : List Nat} (hs : Good s) : Good (shiftRows s) := by
  obtain ⟨h16, hb⟩ := hs
  match s, h16 with
  | [a0, a1, a2, a3, a4, a5, a6, a7, a8, a9, a10, a11, a12, a13, a14, a15], _ =>
    refine ⟨rfl, ?_⟩
    intro x hx
    simp only [shiftRows, List.mem_cons, List.not_mem_nil, or_false] at hx
    have hmem : ∀ y ∈ [a0, a1, a2, a3, a4, a5, a6, a7, a8, a9, a10, a11, a12, a13, a14, a15],
        y < 256 := hb
    simp only [List.forall_mem_cons] at hmem
    rcases hx with rfl | rfl | rfl | rfl | rfl | rfl | rfl | rfl | rfl | rfl | rfl | rfl |
      rfl | rfl | rfl | rfl <;> tauto

theorem good_invShiftRows {s : List Nat} (hs : Good s) : Good (invShiftRows s) := by
  obtain ⟨h16, hb⟩ := hs
  match s, h16 with
  | [a0, a1, a2, a3, a4, a5, a6, a7, a8, a9, a10, a11, a12, a13, a14, a15], _ =>
    refine ⟨rfl, ?_⟩
    intro x hx
    simp only [invShiftRows, List.mem_cons, List.not_mem_nil, or_false] at hx
    have hmem : ∀ y ∈ [a0, a1, a2, a3, a4, a5, a6, a7, a8, a9, a10, a11, a12, a13, a14, a15],
        y < 256 := hb
    simp only [List.forall_mem_cons] at hmem
    rcases hx with rfl | rfl | rfl | rfl | rfl | rfl | rfl | rfl | rfl | rfl | rfl | rfl |
      rfl | rfl | rfl | rfl <;> tauto

theorem byteok_mixCol (a b c d : Nat) (ha : a < 256) (hb : b < 256) (hc : c < 256)
    (hd : d < 256) : ByteOk (mixCol a b c d) := by
  intro x hx
  simp only [mixCol, List.mem_cons, List.not_mem_nil, or_false] at hx
  rcases hx with rfl | rfl | rfl | rfl
  · exact xor_lt_256 (xor_lt_256 (xor_lt_256 (mul2_lt a) (mul3_lt b)) hc) hd
  · exact xor_lt_256 (xor_lt_256 (xor_lt_256 ha (mul2_lt b)) (mul3_lt c)) hd
  · exact xor_lt_256 (xor_lt_256 (xor_lt_256 ha hb) (mul2_lt c)) (mul3_lt d)
  · exact xor_lt_256 (xor_lt_256 (xor_lt_256 (mul3_lt a) hb) hc) (mul2_lt d)

theorem byteok_invMixCol (a b c d : Nat) : ByteOk (invMixCol a b c d) := by
  intro x hx
  simp only [invMixCol, List.mem_cons, List.not_mem_nil, or_false] at hx
  rcases hx with rfl | rfl | rfl | rfl
  · exact xor_lt_256 (xor_lt_256 (xor_lt_256 (mul14_lt a) (mul11_lt b)) (mul13_lt c)) (mul9_lt d)
  · exact xor_lt_256 (xor_lt_256 (xor_lt_256 (mul9_lt a) (mul14_lt b)) (mul11_lt c)) (mul13_lt d)
  · exact xor_lt_256 (xor_lt_256 (xor_lt_256 (mul13_lt a) (mul9_lt b)) (mul14_lt c)) (mul11_lt d)
  · exact xor_lt_256 (xor_lt_256 (xor_lt_256 (mul11_lt a) (mul13_lt b)) (mul9_lt c)) (mul14_lt d)

theorem good_mixColumns {s : List Nat} (hs : Good s) : Good (mixColumns s) := by
  obtain ⟨h16, hb⟩ := hs
  match s, h16 with
  | [a0, a1, a2, a3, a4, a5, a6, a7, a8, a9, a10, a11, a12, a13, a14, a15], _ =>
    have hmem : ∀ y ∈ [a0, a1, a2, a3, a4, a5, a6, a7, a8, a9, a10, a11, a12, a13, a14, a15],
        y < 256 := hb
    simp only [List.forall_mem_cons] at hmem
    constructor
    · simp [mixColumns, mixCol]
    · simp only [mixColumns]
      intro x hx
      simp only [List.mem_append] at hx
      rcases hx with ((hx | hx) | hx) | hx <;>
        [exact byteok_mixCol _ _ _ _ hmem.1 hmem.2.1 hmem.2.2.1 hmem.2.2.2.1 x hx;
         exact byteok_mixCol _ _ _ _ hmem.2.2.2.2.1 hmem.2.2.2.2.2.1 hmem.2.2.2.2.2.2.1
           hmem.2.2.2.2.2.2.2.1 x hx;
         exact byteok_mixCol _ _ _ _ hmem.2.2.2.2.2.2.2.2.1 hmem.2.2.2.2.2.2.2.2.2.1
           hmem.2.2.2.2.2.2.2.2.2.2.1 hmem.2.2.2.2.2.2.2.2.2.2.2.1 x hx;
         exact byteok_mixCol _ _ _ _ hmem.2.2.2.2.2.2.2.2.2.2.2.2.1
           hmem.2.2.2.2.2.2.2.2.2.2.2.2.2.1 hmem.2.2.2.2.2.2.2.2.2.2.2.2.2.2.1
           hmem.2.2.2.2.2.2.2.2.2.2.2.2.2.2.2.1 x hx]

theorem good_invMixColumns {s : List Nat} (hs : Good s) : Good (invMixColumns s) := by
  obtain ⟨h16, hb⟩ := hs
  match s, h16 with
  | [a0, a1, a2, a3, a4, a5, a6, a7, a8, a9, a10, a11, a12, a13, a14, a15], _ =>
    constructor
    · simp [invMixColumns, invMixCol]
    · simp only [invMixColumns]
      intro x hx
      simp only [List.mem_append] at hx
      rcases hx with ((hx | hx) | hx) | hx <;> exact byteok_invMixCol _ _ _ _ x hx

theorem zipXor_cancel : ∀ s k : List Nat, s.length ≤ k.length →
    zipXor (zipXor s k) k = s
  | [], _, _ => rfl
  | _ :: _, [], h => by simp at h
  | x :: s, y :: k, h => by
    simp only [zipXor, List.zipWith_cons_cons, Nat.xor_cancel_right, List.cons.injEq,
      true_and]
    exact zipXor_cancel s k (by simpa using h)

theorem addRoundKey_cancel (s k : List Nat) (h : s.length ≤ k.length) :
    addRoundKey (addRoundKey s k) k = s := zipXor_cancel s k h

theorem invShiftRows_shiftRows (s : List Nat) (h : s.length = 16) :
    invShiftRows (shiftRows s) = s := by
  match s, h with
  | [a0, a1, a2, a3, a4, a5, a6, a7, a8, a9, a10, a11, a12, a13, a14, a15], _ => rfl

theorem invSubBytes_subBytes : ∀ s : List Nat, ByteOk s → invSubBytes (subBytes s) = s
  | [], _ => rfl
  | h :: t, hb => by
    simp only [subBytes, invSubBytes, List.map_cons] at *
    rw [invSbox_sbox h (hb h (by simp)),
      show List.map invSbox (List.map sbox t) = t from
        invSubBytes_subBytes t (fun y hy => hb y (by simp [hy]))]

theorem invMixColumns_mixColumns (s : List Nat) (hs : Good s) :
    invMixColumns (mixColumns s) = s := by
  obtain ⟨h16, hb⟩ := hs
  match s, h16 with
  | [a0, a1, a2, a3, a4, a5, a6, a7, a8, a9, a10, a11, a12, a13, a14, a15], _ =>
    have hm : ∀ y ∈ [a0, a1, a2, a3, a4, a5, a6, a7, a8, a9, a10, a11, a12, a13, a14, a15],
        y < 256 := hb
    simp only [List.forall_mem_cons] at hm
    simp only [mixColumns, mixCol, List.cons_append, List.nil_append, invMixColumns]
    rw [invMixCol_mixCol a0 a1 a2 a3 hm.1 hm.2.1 hm.2.2.1 hm.2.2.2.1,
      invMixCol_mixCol a4 a5 a6 a7 hm.2.2.2.2.1 hm.2.2.2.2.2.1 hm.2.2.2.2.2.2.1
        hm.2.2.2.2.2.2.2.1,
      invMixCol_mixCol a8 a9 a10 a11 hm.2.2.2.2.2.2.2.2.1 hm.2.2.2.2.2.2.2.2.2.1
        hm.2.2.2.2.2.2.2.2.2.2.1 hm.2.2.2.2.2.2.2.2.2.2.2.1,
      invMixCol_mixCol a12 a13 a14 a15 hm.2.2.2.2.2.2.2.2.2.2.2.2.1
        hm.2.2.2.2.2.2.2.2.2.2.2.2.2.1 hm.2.2.2.2.2.2.2.2.2.2.2.2.2.2.1
        hm.2.2.2.2.2.2.2.2.2.2.2.2.2.2.2.1]
    rfl

theorem good_nextKey {k : List Nat} (rc : Nat) (hk : Good k) (hrc : rc < 256) :
    Good (nextKey k rc) := by
  obtain ⟨h16, hb⟩ := hk
  match k, h16 with
  | [a0, a1, a2, a3, a4, a5, a6, a7, a8, a9, a10, a11, a12, a13, a14, a15], _ =>
    have hm : ∀ y ∈ [a0, a1, a2, a3, a4, a5, a6, a7, a8, a9, a10, a11, a12, a13, a14, a15],
        y < 256 := hb
    simp only [List.forall_mem_cons] at hm
    have bw0 : ByteOk [a0 ^^^ (sbox a13 ^^^ rc), a1 ^^^ sbox a14, a2 ^^^ sbox a15,
        a3 ^^^ sbox a12] := by
      intro x hx
      simp only [List.mem_cons, List.not_mem_nil, or_false] at hx
      rcases hx with rfl | rfl | rfl | rfl
      · exact xor_lt_256 hm.1 (xor_lt_256 (sbox_lt _ hm.2.2.2.2.2.2.2.2.2.2.2.2.2.1) hrc)
      · exact xor_lt_256 hm.2.1 (sbox_lt _ hm.2.2.2.2.2.2.2.2.2.2.2.2.2.2.1)
      · exact xor_lt_256 hm.2.2.1 (sbox_lt _ hm.2.2.2.2.2.2.2.2.2.2.2.2.2.2.2.1)
      · exact xor_lt_256 hm.2.2.2.1 (sbox_lt _ hm.2.2.2.2.2.2.2.2.2.2.2.2.1)
    have b4 : ByteOk [a4, a5, a6, a7] := by
      intro x hx
      simp only [List.mem_cons, List.not_mem_nil, or_false] at hx
      rcases hx with rfl | rfl | rfl | rfl <;> tauto
    have b8 : ByteOk [a8, a9, a10, a11] := by
      intro x hx
      simp only [List.mem_cons, List.not_mem_nil, or_false] at hx
      rcases hx with rfl | rfl | rfl | rfl <;> tauto
    have b12 : ByteOk [a12, a13, a14, a15] := by
      intro x hx
      simp only [List.mem_cons, List.not_mem_nil, or_false] at hx
      rcases hx with rfl | rfl | rfl | rfl <;> tauto
    have bw1 := byteok_zipXor [a4, a5, a6, a7] _ b4 bw0
    have bw2 := byteok_zipXor [a8, a9, a10, a11] _ b8 bw1
    have bw3 := byteok_zipXor [a12, a13, a14, a15] _ b12 bw2
    constructor
    · simp [nextKey, zipXor]
    · simp only [nextKey]
      intro x hx
      simp only [List.append_assoc, List.mem_append] at hx
      rcases hx with hx | hx | hx | hx
      · exact bw0 x hx
      · exact bw1 x hx
      · exact bw2 x hx
      · exact bw3 x hx

theorem good_encRound {k s : List Nat} (hk : Good k) (hs : Good s) :
    Good (encRound k s) :=
  good_addRoundKey (good_mixColumns (good_shiftRows (good_subBytes hs))) hk

theorem good_encRounds : ∀ ks : List (List Nat), ∀ s : List Nat,
    (∀ k ∈ ks, Good k) → Good s → Good (encRounds ks s)
  | [], s, _, hs => hs
  | k :: ks, s, hks, hs => by
    simp only [encRounds, List.foldl_cons]
    exact good_encRounds ks _ (fun x hx => hks x (by simp [hx]))
      (good_encRound (hks k (by simp)) hs)

theorem decRound_encRound {k s : List Nat} (hk : Good k) (hs : Good s) :
    decRound k (encRound k s) = s := by
  have h1 : Good (subBytes s) := good_subBytes hs
  have h2 : Good (shiftRows (subBytes s)) := good_shiftRows h1
  have h3 : Good (mixColumns (shiftRows (subBytes s))) := good_mixColumns h2
  unfold decRound encRound
  rw [addRoundKey_cancel _ _ (by rw [h3.1, hk.1]),
    invMixColumns_mixColumns _ h2,
    invShiftRows_shiftRows _ h1.1,
    invSubBytes_subBytes _ hs.2]

theorem decRounds_encRounds : ∀ ks : List (List Nat), ∀ s : List Nat,
    (∀ k ∈ ks, Good k) → Good s → decRounds ks.reverse (encRounds ks s) = s
  | [], _, _, _ => rfl
  | k :: ks, s, hks, hs => by
    simp only [encRounds, List.foldl_cons, List.reverse_cons, decRounds, List.foldl_append,
      List.foldl_cons, List.foldl_nil]
    have ih := decRounds_encRounds ks (encRound k s) (fun x hx => hks x (by simp [hx]))
      (good_encRound (hks k (by simp)) hs)
    simp only [encRounds, decRounds] at ih
    rw [ih]
    exact decRound_encRound (hks k (by simp)) hs

/-- AES-128 block decryption inverts block encryption for a well-formed key
    and block. -/
theorem decryptBlock_encryptBlock (key b : List Nat) (hk : Good key) (hb : Good b) :
    decryptBlock key (encryptBlock key b) = b := by
  have gk1 : Good (nextKey key 1) := good_nextKey 1 hk (by norm_num)
  have gk2 : Good (nextKey (nextKey key 1) 2) := good_nextKey 2 gk1 (by norm_num)
  have gk3 := good_nextKey 4 gk2 (by norm_num)
  have gk4 := good_nextKey 8 gk3 (by norm_num)
  have gk5 := good_nextKey 16 gk4 (by norm_num)
  have gk6 := good_nextKey 32 gk5 (by norm_num)
  have gk7 := good_nextKey 64 gk6 (by norm_num)
  have gk8 := good_nextKey 128 gk7 (by norm_num)
  have gk9 := good_nextKey 27 gk8 (by norm_num)
  have gk10 := good_nextKey 54 gk9 (by norm_num)
  simp only [encryptBlock, decryptBlock]
  have hks : ∀ k ∈ [nextKey key 1, nextKey (nextKey key 1) 2,
      nextKey (nextKey (nextKey key 1) 2) 4,
      nextKey (nextKey (nextKey (nextKey key 1) 2) 4) 8,
      nextKey (nextKey (nextKey (nextKey (nextKey key 1) 2) 4) 8) 16,
      nextKey (nextKey (nextKey (nextKey (nextKey (nextKey key 1) 2) 4) 8) 16) 32,
      nextKey (nextKey (nextKey (nextKey (nextKey (nextKey (nextKey key 1) 2) 4) 8) 16)
        32) 64,
      nextKey (nextKey (nextKey (nextKey (nextKey (nextKey (nextKey (nextKey key 1) 2) 4)
        8) 16) 32) 64) 128,
      nextKey (nextKey (nextKey (nextKey (nextKey (nextKey (nextKey (nextKey (nextKey
        key 1) 2) 4) 8) 16) 32) 64) 128) 27], Good k := by
    simp only [List.forall_mem_cons]
    exact ⟨gk1, gk2, gk3, gk4, gk5, gk6, gk7, gk8, gk9, by simp⟩
  have g0 : Good (addRoundKey b key) := good_addRoundKey hb hk
  have gS := good_encRounds _ _ hks g0
  have gSub := good_subBytes gS
  have gShift := good_shiftRows gSub
  rw [addRoundKey_cancel _ _ (by rw [gShift.1, gk10.1]),
    invShiftRows_shiftRows _ gSub.1,
    invSubBytes_subBytes _ gS.2,
    show [nextKey (nextKey (nextKey (nextKey (nextKey (nextKey (nextKey (nextKey
        (nextKey key 1) 2) 4) 8) 16) 32) 64) 128) 27,
      nextKey (nextKey (nextKey (nextKey (nextKey (nextKey (nextKey (nextKey key 1) 2)
        4) 8) 16) 32) 64) 128,
      nextKey (nextKey (nextKey (nextKey (nextKey (nextKey (nextKey key 1) 2) 4) 8) 16)
        32) 64,
      nextKey (nextKey (nextKey (nextKey (nextKey (nextKey key 1) 2) 4) 8) 16) 32,
      nextKey (nextKey (nextKey (nextKey (nextKey key 1) 2) 4) 8) 16,
      nextKey (nextKey (nextKey (nextKey key 1) 2) 4) 8,
      nextKey (nextKey (nextKey key 1) 2) 4,
      nextKey (nextKey key 1) 2,
      nextKey key 1] = [nextKey key 1, nextKey (nextKey key 1) 2,
      nextKey (nextKey (nextKey key 1) 2) 4,
      nextKey (nextKey (nextKey (nextKey key 1) 2) 4) 8,
      nextKey (nextKey (nextKey (nextKey (nextKey key 1) 2) 4) 8) 16,
      nextKey (nextKey (nextKey (nextKey (nextKey (nextKey key 1) 2) 4) 8) 16) 32,
      nextKey (nextKey (nextKey (nextKey (nextKey (nextKey (nextKey key 1) 2) 4) 8) 16)
        32) 64,
      nextKey (nextKey (nextKey (nextKey (nextKey (nextKey (nextKey (nextKey key 1) 2)
        4) 8) 16) 32) 64) 128,
      nextKey (nextKey (nextKey (nextKey (nextKey (nextKey (nextKey (nextKey (nextKey
        key 1) 2) 4) 8) 16) 32) 64) 128) 27].reverse from rfl,
    decRounds_encRounds _ _ hks g0,
    addRoundKey_cancel b key (by rw [hb.1, hk.1])]

theorem good_encryptBlock (key b : List Nat) (hk : Good key) (hb : Good b) :
    Good (encryptBlock key b) := by
  have gk1 : Good (nextKey key 1) := good_nextKey 1 hk (by norm_num)
  have gk2 : Good (nextKey (nextKey key 1) 2) := good_nextKey 2 gk1 (by norm_num)
  have gk3 := good_nextKey 4 gk2 (by norm_num)
  have gk4 := good_nextKey 8 gk3 (by norm_num)
  have gk5 := good_nextKey 16 gk4 (by norm_num)
  have gk6 := good_nextKey 32 gk5 (by norm_num)
  have gk7 := good_nextKey 64 gk6 (by norm_num)
  have gk8 := good_nextKey 128 gk7 (by norm_num)
  have gk9 := good_nextKey 27 gk8 (by norm_num)
  have gk10 := good_nextKey 54 gk9 (by norm_num)
  have hks : ∀ k ∈ [nextKey key 1, nextKey (nextKey key 1) 2,
      nextKey (nextKey (nextKey key 1) 2) 4,
      nextKey (nextKey (nextKey (nextKey key 1) 2) 4) 8,
      nextKey (nextKey (nextKey (nextKey (nextKey key 1) 2) 4) 8) 16,
      nextKey (nextKey (nextKey (nextKey (nextKey (nextKey key 1) 2) 4) 8) 16) 32,
      nextKey (nextKey (nextKey (nextKey (nextKey (nextKey (nextKey key 1) 2) 4) 8) 16)
        32) 64,
      nextKey (nextKey (nextKey (nextKey (nextKey (nextKey (nextKey (nextKey key 1) 2) 4)
        8) 16) 32) 64) 128,
      nextKey (nextKey (nextKey (nextKey (nextKey (nextKey (nextKey (nextKey (nextKey
        key 1) 2) 4) 8) 16) 32) 64) 128) 27], Good k := by
    simp only [List.forall_mem_cons]
    exact ⟨gk1, gk2, gk3, gk4, gk5, gk6, gk7, gk8, gk9, by simp⟩
  have g0 : Good (addRoundKey b key) := good_addRoundKey hb hk
  have gS := good_encRounds _ _ hks g0
  simp only [encryptBlock]
  exact good_addRoundKey (good_shiftRows (good_subBytes gS)) gk10

theorem good_zipXor {a b : List Nat} (ha : Good a) (hb : Good b) : Good (zipXor a b) :=
  good_addRoundKey ha hb

theorem cbcEnc_good (key : List Nat) (hk : Good key) : ∀ bs : List (List Nat),
    ∀ prev : List Nat, Good prev → (∀ x ∈ bs, Good x) →
    ∀ c ∈ cbcEncBlocks key prev bs, Good c
  | [], _, _, _ => by simp [cbcEncBlocks]
  | b :: bs, prev, hp, hbs => by
    intro c hc
    simp only [cbcEncBlocks, List.mem_cons] at hc
    have gc : Good (encryptBlock key (zipXor b prev)) :=
      good_encryptBlock _ _ hk (good_zipXor (hbs b (by simp)) hp)
    cases hc with
    | inl h => rw [h]; exact gc
    | inr h => exact cbcEnc_good key hk bs _ gc (fun x hx => hbs x (by simp [hx])) c h

theorem cbcDec_cbcEnc (key : List Nat) (hk : Good key) : ∀ bs : List (List Nat),
    ∀ prev : List Nat, Good prev → (∀ x ∈ bs, Good x) →
    cbcDecBlocks key prev (cbcEncBlocks key prev bs) = bs
  | [], _, _, _ => rfl
  | b :: bs, prev, hp, hbs => by
    have hgb : Good b := hbs b (by simp)
    have hx : Good (zipXor b prev) := good_zipXor hgb hp
    simp only [cbcEncBlocks, cbcDecBlocks, List.cons.injEq]
    refine ⟨?_, ?_⟩
    · rw [decryptBlock_encryptBlock key _ hk hx, zipXor_cancel b prev (by rw [hgb.1, hp.1])]
    · exact cbcDec_cbcEnc key hk bs _ (good_encryptBlock _ _ hk hx)
        (fun x hx2 => hbs x (by simp [hx2]))

theorem flatten16_length : ∀ bs : List (List Nat), (∀ x ∈ bs, x.length = 16) →
    bs.flatten.length = 16 * bs.length
  | [], _ => rfl
  | b :: bs, h => by
    simp only [List.flatten_cons, List.length_append, List.length_cons,
      flatten16_length bs (fun x hx => h x (by simp [hx])), h b (by simp)]
    ring

theorem chunks16_flatten : ∀ bs : List (List Nat), (∀ b ∈ bs, b.length = 16) →
    chunks16 bs.flatten = bs
  | [], _ => rfl
  | b :: bs, h => by
    have hb : b.length = 16 := h b (by simp)
    match b, hb with
    | [a0, a1, a2, a3, a4, a5, a6, a7, a8, a9, a10, a11, a12, a13, a14, a15], _ =>
      show chunks16 ([a0, a1, a2, a3, a4, a5, a6, a7, a8, a9, a10, a11, a12, a13, a14,
        a15] ++ List.flatten bs) = _
      simp only [List.cons_append, List.nil_append]
      show [a0, a1, a2, a3, a4, a5, a6, a7, a8, a9, a10, a11, a12, a13, a14, a15] ::
        chunks16 (List.flatten bs) = _
      rw [chunks16_flatten bs (fun x hx => h x (by simp [hx]))]

theorem chunks16_mem (l : List Nat) : ∀ b ∈ chunks16 l, b.length = 16 ∧ ∀ x ∈ b, x ∈ l := by
  induction l using chunks16.induct with
  | case1 b0 b1 b2 b3 b4 b5 b6 b7 b8 b9 b10 b11 b12 b13 b14 b15 rest ih =>
    intro b hb
    simp only [chunks16, List.mem_cons] at hb
    rcases hb with rfl | hb
    · refine ⟨rfl, ?_⟩
      intro x hx
      simp only [List.mem_cons, List.not_mem_nil, or_false] at hx
      simp only [List.mem_cons]
      tauto
    · obtain ⟨h1, h2⟩ := ih b hb
      refine ⟨h1, fun x hx => ?_⟩
      simp only [List.mem_cons]
      exact Or.inr (Or.inr (Or.inr (Or.inr (Or.inr (Or.inr (Or.inr (Or.inr (Or.inr
        (Or.inr (Or.inr (Or.inr (Or.inr (Or.inr (Or.inr (Or.inr (h2 x hx))))))))))))))))
  | case2 l h2 =>
    intro b hb
    simp [chunks16] at hb

theorem flatten_chunks16 (l : List Nat) (h : l.length % 16 = 0) :
    (chunks16 l).flatten = l := by
  induction l using chunks16.induct with
  | case1 b0 b1 b2 b3 b4 b5 b6 b7 b8 b9 b10 b11 b12 b13 b14 b15 rest ih =>
    simp only [chunks16, List.flatten_cons, List.cons_append, List.nil_append]
    rw [ih (by simp at h ⊢; omega)]
  | case2 t h2 =>
    by_cases hlt : t.length < 16
    · have h0 : t.length = 0 := by omega
      have ht : t = [] := List.length_eq_zero.mp h0
      subst ht
      rfl
    · exfalso
      have h16 : (t.take 16).length = 16 := by
        rw [List.length_take]
        omega
      have hd : t = t.take 16 ++ t.drop 16 := (List.take_append_drop 16 t).symm
      revert hd
      match t.take 16, h16 with
      | [a0, a1, a2, a3, a4, a5, a6, a7, a8, a9, a10, a11, a12, a13, a14, a15], _ =>
        intro hd
        exact h2 a0 a1 a2 a3 a4 a5 a6 a7 a8 a9 a10 a11 a12 a13 a14 a15 (t.drop 16)
          (by simpa using hd)

/-! ## decryptChromeCookie (src/unnamed/part_007 lines 114-164) -/

/-- The 3-byte ASCII marker v10 that macOS Chromium prepends to encrypted
    cookie values. -/
def v10marker : List Nat := [118, 49, 48]

/-- The fixed initialization vector: 16 ASCII space characters. -/
def iv16 : List Nat := List.replicate 16 32

/-- PKCS number 7 padding to a 16-byte block boundary, as produced by the
    encryption direction of aes-128-cbc. -/
def pkcs7pad (pt : List Nat) : List Nat :=
  pt ++ List.replicate (16 - pt.length % 16) (16 - pt.length % 16)

/-- Modelled from the spec: AES-128-CBC encryption with PKCS number 7
    padding and the fixed 16-space IV.  This is the inverse primitive named
    by the round-trip obligation; the repository itself only decrypts. -/
def aesCbcEncrypt (key pt : List Nat) : List Nat :=
  (cbcEncBlocks key iv16 (chunks16 (pkcs7pad pt))).flatten

/-- The hash-prefix strip step of decryptChromeCookie (lines 151-158):
    only when the decrypted buffer is strictly longer than 32 bytes and a
    byte of its first 32 is outside printable ASCII are the 32 bytes
    dropped. -/
def stripHash32 (buf : List Nat) : List Nat :=
  if 32 < buf.length then
    if (buf.take 32).any (fun b => decide (b < 32) || decide (126 < b)) then
      buf.drop 32
    else buf
  else buf

/-- decryptChromeCookie (lines 114-164), on bytes.  The final JS utf-8
    decode is modelled as the identity on the byte level.  The two early
    branches return the input unchanged; a bad key size or a ciphertext
    that is not a multiple of the block size makes createDecipheriv or
    decipher.final throw, which the catch turns into the empty value. -/
def decryptChromeCookie (encryptedValue key : List Nat) : List Nat :=
  if encryptedValue.length < 3 then encryptedValue
  else if encryptedValue.take 3 ≠ v10marker then encryptedValue
  else
    let data := encryptedValue.drop 3
    if key.length ≠ 16 then []
    else if data.length % 16 ≠ 0 then []
    else
      let decrypted := (cbcDecBlocks key iv16 (chunks16 data)).flatten
      let afterPad :=
        match decrypted.getLast? with
        | none => decrypted
        | some p =>
          if 1 ≤ p ∧ p ≤ 16 then decrypted.take (decrypted.length - p) else decrypted
      stripHash32 afterPad

theorem pkcs7_pad_mod (pt : List Nat) : (pkcs7pad pt).length % 16 = 0 := by
  simp only [pkcs7pad, List.length_append, List.length_replicate]
  omega

theorem pkcs7_byteok (pt : List Nat) (h : ByteOk pt) : ByteOk (pkcs7pad pt) := by
  intro x hx
  simp only [pkcs7pad, List.mem_append, List.mem_replicate] at hx
  rcases hx with hx | ⟨-, rfl⟩
  · exact h x hx
  · omega

theorem good_iv16 : Good iv16 := by
  constructor
  · simp [iv16]
  · intro x hx
    simp only [iv16, List.mem_replicate] at hx
    omega

/-- Decryption inverts spec-side encryption for any plaintext of at most 32
    bytes (so that the hash-prefix heuristic cannot fire). -/
theorem decryptChromeCookie_roundtrip (key pt : List Nat) (hk : Good key)
    (hpt : ByteOk pt) (hlen : pt.length ≤ 32) :
    decryptChromeCookie (v10marker ++ aesCbcEncrypt key pt) key = pt := by
  have hpadok : ByteOk (pkcs7pad pt) := pkcs7_byteok pt hpt
  have hblocks : ∀ x ∈ chunks16 (pkcs7pad pt), Good x := by
    intro x hx
    obtain ⟨hl, hsub⟩ := chunks16_mem _ x hx
    exact ⟨hl, fun y hy => hpadok y (hsub y hy)⟩
  have hencGood : ∀ c ∈ cbcEncBlocks key iv16 (chunks16 (pkcs7pad pt)), Good c :=
    cbcEnc_good key hk _ iv16 good_iv16 hblocks
  have henc16 : ∀ c ∈ cbcEncBlocks key iv16 (chunks16 (pkcs7pad pt)), c.length = 16 :=
    fun c hc => (hencGood c hc).1
  have hctmod : (aesCbcEncrypt key pt).length % 16 = 0 := by
    unfold aesCbcEncrypt
    rw [flatten16_length _ henc16]
    omega
  have hchunks : chunks16 (aesCbcEncrypt key pt) =
      cbcEncBlocks key iv16 (chunks16 (pkcs7pad pt)) := by
    unfold aesCbcEncrypt
    exact chunks16_flatten _ henc16
  simp only [decryptChromeCookie]
  rw [if_neg (by simp only [List.length_append, v10marker, List.length_cons]; omega)]
  rw [List.take_left' (show (v10marker).length = 3 by rfl)]
  rw [if_neg (by simp)]
  rw [List.drop_left' (show (v10marker).length = 3 by rfl)]
  rw [if_neg (by simp [hk.1])]
  rw [if_neg (by simp [hctmod])]
  rw [hchunks, cbcDec_cbcEnc key hk _ iv16 good_iv16 hblocks,
    flatten_chunks16 _ (pkcs7_pad_mod pt)]
  have hn1 : 1 ≤ 16 - pt.length % 16 := by omega
  have hn16 : 16 - pt.length % 16 ≤ 16 := by omega
  have hgl : (pkcs7pad pt).getLast? = some (16 - pt.length % 16) := by
    obtain ⟨m, hm⟩ : ∃ m, 16 - pt.length % 16 = m + 1 := ⟨16 - pt.length % 16 - 1, by omega⟩
    unfold pkcs7pad
    rw [hm, List.replicate_succ', ← List.append_assoc, List.getLast?_concat, ← hm]
  rw [hgl]
  simp only [if_pos (And.intro hn1 hn16)]
  have harith : (pkcs7pad pt).length - (16 - pt.length % 16) = pt.length := by
    simp only [pkcs7pad, List.length_append, List.length_replicate]
    omega
  rw [harith]
  rw [show pkcs7pad pt = pt ++ List.replicate (16 - pt.length % 16) (16 - pt.length % 16)
    from rfl]
  rw [List.take_left' rfl]
  unfold stripHash32
  rw [if_neg (by omega)]

/-- Modelled from the spec words of C2: the strip step as the claim states
    it, discarding the first 32 bytes whenever the buffer has at least 32
    bytes and one of the first 32 is outside printable ASCII. -/
def stripHash32Claim (buf : List Nat) : List Nat :=
  if 32 ≤ buf.length ∧
      (buf.take 32).any (fun b => decide (b < 32) || decide (126 < b)) = true then
    buf.drop 32
  else buf

/-- C3: for every 16-byte key and every plaintext of length 1, 2, 3, 10 or
    16, AES-128-CBC encryption (PKCS number 7 padding, 16-space IV) followed
    by the v10 marker and decryptChromeCookie recovers the plaintext
    exactly. -/
theorem c3_cbc_roundtrip (key pt : List Nat) (hk16 : key.length = 16)
    (hkB : ByteOk key) (hptB : ByteOk pt)
    (hlen : pt.length = 1 ∨ pt.length = 2 ∨ pt.length = 3 ∨ pt.length = 10 ∨
      pt.length = 16) :
    decryptChromeCookie (v10marker ++ aesCbcEncrypt key pt) key = pt :=
  decryptChromeCookie_roundtrip key pt ⟨hk16, hkB⟩ hptB (by omega)

/-- Witness for C3 at a concrete key and the singleton plaintext 65. -/
theorem c3_cbc_roundtrip_witness :
    (List.replicate 16 7 : List Nat).length = 16 ∧ ByteOk (List.replicate 16 7) ∧
      ByteOk [65] ∧ ([65] : List Nat).length = 1 ∧
      decryptChromeCookie (v10marker ++ aesCbcEncrypt (List.replicate 16 7) [65])
        (List.replicate 16 7) = [65] :=
  ⟨by decide, by decide, by decide, by decide,
    c3_cbc_roundtrip (List.replicate 16 7) [65] (by decide) (by decide) (by decide)
      (Or.inl (by decide))⟩

/-- C2 counterexample: a ciphertext whose decryption (after padding
    removal) is exactly 32 non-printable bytes.  The code returns the
    buffer unchanged (the strip only fires above 32 bytes), while the
    claim as stated discards the first 32 bytes and would return the empty
    value. -/
theorem c2_counterexample :
    decryptChromeCookie
        (v10marker ++ aesCbcEncrypt (List.replicate 16 0) (List.replicate 32 0))
        (List.replicate 16 0) = List.replicate 32 0 ∧
      (List.replicate 32 0 : List Nat).length = 32 ∧
      (∃ b ∈ (List.replicate 32 0 : List Nat).take 32, b < 32 ∨ 126 < b) ∧
      stripHash32Claim (List.replicate 32 0) = [] ∧
      (List.replicate 32 0 : List Nat) ≠ [] :=
  ⟨decryptChromeCookie_roundtrip _ _ (by decide) (by decide) (by decide),
    by decide, by decide, by decide, by decide⟩

/-- C2 (amended): the strip fires only for decrypted buffers strictly
    longer than 32 bytes with a non-printable byte among the first 32; a
    buffer of 32 bytes or fewer, or with all-printable first 32 bytes, is
    returned unmodified. -/
theorem c2_hash_strip (buf : List Nat) :
    (32 < buf.length → (∃ b ∈ buf.take 32, b < 32 ∨ 126 < b) →
      stripHash32 buf = buf.drop 32) ∧
    (buf.length ≤ 32 → stripHash32 buf = buf) ∧
    ((∀ b ∈ buf.take 32, 32 ≤ b ∧ b ≤ 126) → stripHash32 buf = buf) := by
  refine ⟨?_, ?_, ?_⟩
  · intro h1 h2
    unfold stripHash32
    rw [if_pos h1, if_pos ?_]
    simp only [List.any_eq_true, decide_eq_true_eq, Bool.or_eq_true]
    obtain ⟨b, hb, hout⟩ := h2
    exact ⟨b, hb, hout⟩
  · intro h1
    unfold stripHash32
    rw [if_neg (by omega)]
  · intro h1
    unfold stripHash32
    by_cases h2 : 32 < buf.length
    · rw [if_pos h2, if_neg ?_]
      simp only [List.any_eq_true, decide_eq_true_eq, Bool.or_eq_true]
      rintro ⟨b, hb, hout⟩
      have := h1 b hb
      omega
    · rw [if_neg h2]

/-- Witness for C2 (amended) at a 33-byte non-printable buffer and a
    16-byte buffer. -/
theorem c2_hash_strip_witness :
    (32 < (List.replicate 33 0 : List Nat).length ∧
      (∃ b ∈ (List.replicate 33 0 : List Nat).take 32, b < 32 ∨ 126 < b) ∧
      stripHash32 (List.replicate 33 0) = (List.replicate 33 0 : List Nat).drop 32) ∧
    ((List.replicate 16 0 : List Nat).length ≤ 32 ∧
      stripHash32 (List.replicate 16 0) = List.replicate 16 0) :=
  ⟨⟨by decide, by decide,
      (c2_hash_strip (List.replicate 33 0)).1 (by decide) (by decide)⟩,
    ⟨by decide, (c2_hash_strip (List.replicate 16 0)).2.1 (by decide)⟩⟩

/-- C8: an encrypted value shorter than 3 bytes, or whose first 3 bytes are
    not the v10 marker, is returned unchanged by decryptChromeCookie: no
    decryption, padding removal or hash-prefix stripping is applied. -/
theorem c8_passthrough (ev key : List Nat)
    (h : ev.length < 3 ∨ ev.take 3 ≠ v10marker) :
    decryptChromeCookie ev key = ev := by
  unfold decryptChromeCookie
  rcases h with h | h
  · rw [if_pos h]
  · by_cases h3 : ev.length < 3
    · rw [if_pos h3]
    · rw [if_neg h3, if_pos h]

/-- Witness for C8: a 2-byte value and a 4-byte value with a different
    marker, under an arbitrary key. -/
theorem c8_passthrough_witness :
    (([5, 6] : List Nat).length < 3 ∧ decryptChromeCookie [5, 6] iv16 = [5, 6]) ∧
    (([1, 2, 3, 4] : List Nat).take 3 ≠ v10marker ∧
      decryptChromeCookie [1, 2, 3, 4] iv16 = [1, 2, 3, 4]) :=
  ⟨⟨by decide, c8_passthrough [5, 6] iv16 (Or.inl (by decide))⟩,
    ⟨by decide, c8_passthrough [1, 2, 3, 4] iv16 (Or.inr (by decide))⟩⟩

/-! ## SHA-1, HMAC-SHA1 and PBKDF2 (the primitives behind pbkdf2Sync) -/

/-- 32-bit left rotation. -/
def rotl32 (n x : Nat) : Nat :=
  ((x % 4294967296) <<< n) % 4294967296 ||| (x % 4294967296) >>> (32 - n)

/-- Big-endian 4-byte encoding of a 32-bit word. -/
def toBE4 (n : Nat) : List Nat :=
  [n / 16777216 % 256, n / 65536 % 256, n / 256 % 256, n % 256]

/-- Big-endian 8-byte encoding of a 64-bit length field. -/
def toBE8 (n : Nat) : List Nat :=
  [n / 72057594037927936 % 256, n / 281474976710656 % 256, n / 1099511627776 % 256,
   n / 4294967296 % 256, n / 16777216 % 256, n / 65536 % 256, n / 256 % 256, n % 256]

/-- Group 4 bytes big-endian into one word, over a whole block. -/
def beWords : List Nat → List Nat
  | b0 :: b1 :: b2 :: b3 :: rest =>
    (16777216 * b0 + 65536 * b1 + 256 * b2 + b3) :: beWords rest
  | _ => []

/-- SHA-1 message schedule expansion by one word per fuel step. -/
def sha1Expand (ws : List Nat) : Nat → List Nat
  | 0 => ws
  | f + 1 =>
    let t := ws.length
    sha1Expand (ws ++ [rotl32 1 (ws.getD (t - 3) 0 ^^^ ws.getD (t - 8) 0 ^^^
      ws.getD (t - 14) 0 ^^^ ws.getD (t - 16) 0)]) f

/-- The SHA-1 working state: five 32-bit words. -/
structure SHA1S where
  a : Nat
  b : Nat
  c : Nat
  d : Nat
  e : Nat

def sha1F (t b c d : Nat) : Nat :=
  if t < 20 then (b &&& c) ||| ((b ^^^ 4294967295) &&& d)
  else if t < 40 then b ^^^ c ^^^ d
  else if t < 60 then (b &&& c) ||| (b &&& d) ||| (c &&& d)
  else b ^^^ c ^^^ d

def sha1K (t : Nat) : Nat :=
  if t < 20 then 1518500249
  else if t < 40 then 1859775393
  else if t < 60 then 2400959708
  else 3395469782

/-- The 80 SHA-1 rounds, one per fuel step. -/
def sha1Rounds (t : Nat) (fuel : Nat) (s : SHA1S) (ws : List Nat) : SHA1S :=
  match fuel with
  | 0 => s
  | f + 1 =>
    let temp := (rotl32 5 s.a + sha1F t s.b s.c s.d + s.e + sha1K t +
      ws.getD t 0) % 4294967296
    sha1Rounds (t + 1) f ⟨temp, s.a, rotl32 30 s.b, s.c, s.d⟩ ws

def sha1Compress (h : SHA1S) (block : List Nat) : SHA1S :=
  let ws := sha1Expand (beWords block) 64
  let r := sha1Rounds 0 80 h ws
  ⟨(h.a + r.a) % 4294967296, (h.b + r.b) % 4294967296, (h.c + r.c) % 4294967296,
   (h.d + r.d) % 4294967296, (h.e + r.e) % 4294967296⟩

def sha1Init : SHA1S := ⟨1732584193, 4023233417, 2562383102, 271733878, 3285377520⟩

/-- Process the padded message 64 bytes at a time, one block per fuel step. -/
def sha1Blocks (fuel : Nat) (m : List Nat) (h : SHA1S) : SHA1S :=
  match fuel with
  | 0 => h
  | f + 1 => sha1Blocks f (m.drop 64) (sha1Compress h (m.take 64))

/-- SHA-1 padding: 0x80, zeros to 56 mod 64, then the 64-bit big-endian bit
    length. -/
def sha1pad (msg : List Nat) : List Nat :=
  msg ++ [128] ++ List.replicate ((119 - msg.length % 64) % 64) 0 ++
    toBE8 (msg.length * 8)

def sha1 (msg : List Nat) : List Nat :=
  let padded := sha1pad msg
  let h := sha1Blocks (padded.length / 64) padded sha1Init
  toBE4 h.a ++ toBE4 h.b ++ toBE4 h.c ++ toBE4 h.d ++ toBE4 h.e

/-- FIPS 180 test vector: SHA-1 of the three bytes abc. -/
theorem sha1_abc :
    sha1 [97, 98, 99] =
    [169, 153, 62, 54, 71, 6, 129, 106, 186, 62, 37, 113, 120, 80, 194, 108, 156, 208,
     216, 157] := by decide

/-- SHA-1 of the empty message. -/
theorem sha1_empty :
    sha1 [] =
    [218, 57, 163, 238, 94, 107, 75, 13, 50, 85, 191, 239, 149, 96, 24, 144, 175, 216,
     7, 9] := by decide

/-- RFC 2104 HMAC-SHA1 with a 64-byte block size. -/
def hmacSha1 (key msg : List Nat) : List Nat :=
  let k0 := if 64 < key.length then sha1 key else key
  let kp := k0 ++ List.replicate (64 - k0.length) 0
  sha1 ((kp.map (fun b => b ^^^ 92)) ++ sha1 ((kp.map (fun b => b ^^^ 54)) ++ msg))

/-- RFC 2202 test case 2 for HMAC-SHA1. -/
theorem hmacSha1_jefe :
    hmacSha1 [74, 101, 102, 101]
      [119, 104, 97, 116, 32, 100, 111, 32, 121, 97, 32, 119, 97, 110, 116, 32, 102,
       111, 114, 32, 110, 111, 116, 104, 105, 110, 103, 63] =
    [239, 252, 223, 106, 229, 235, 47, 162, 210, 116, 22, 213, 241, 132, 223, 156, 37,
     154, 124, 121] := by decide

/-- The PBKDF2 xor-accumulation of successive HMAC values, one iteration
    per fuel step. -/
def pbkdf2Iter (pw : List Nat) : Nat → List Nat → List Nat → List Nat
  | 0, _, acc => acc
  | n + 1, prev, acc =>
    let u := hmacSha1 pw prev
    pbkdf2Iter pw n u (zipXor acc u)

/-- One PBKDF2 output block for block index idx. -/
def pbkdf2Block (pw salt : List Nat) (iter idx : Nat) : List Nat :=
  let u1 := hmacSha1 pw (salt ++ toBE4 idx)
  pbkdf2Iter pw (iter - 1) u1 u1

def pbkdf2Blocks (pw salt : List Nat) (iter : Nat) : Nat → Nat → List Nat
  | 0, _ => []
  | f + 1, idx => pbkdf2Block pw salt iter idx ++ pbkdf2Blocks pw salt iter f (idx + 1)

/-- RFC 8018 PBKDF2 with HMAC-SHA1 as the pseudorandom function. -/
def pbkdf2HmacSha1 (pw salt : List Nat) (iter dkLen : Nat) : List Nat :=
  (pbkdf2Blocks pw salt iter ((dkLen + 19) / 20) 1).take dkLen

/-- RFC 6070 test vector 2 for PBKDF2-HMAC-SHA1. -/
theorem pbkdf2_rfc6070 :
    pbkdf2HmacSha1 [112, 97, 115, 115, 119, 111, 114, 100] [115, 97, 108, 116] 2 20 =
    [234, 108, 1, 77, 199, 45, 111, 140, 205, 30, 217, 42, 206, 29, 65, 240, 216, 222,
     137, 87] := by decide

theorem sha1_length (msg : List Nat) : (sha1 msg).length = 20 := by
  simp [sha1, toBE4]

theorem hmacSha1_length (key msg : List Nat) : (hmacSha1 key msg).length = 20 := by
  unfold hmacSha1
  exact sha1_length _

theorem pbkdf2Iter_length (pw : List Nat) : ∀ (n : Nat) (prev acc : List Nat),
    acc.length = 20 → (pbkdf2Iter pw n prev acc).length = 20
  | 0, _, _, h => h
  | n + 1, prev, acc, h => by
    simp only [pbkdf2Iter]
    exact pbkdf2Iter_length pw n _ _
      (by simp [zipXor, h, hmacSha1_length])

theorem pbkdf2Block_length (pw salt : List Nat) (iter idx : Nat) :
    (pbkdf2Block pw salt iter idx).length = 20 := by
  unfold pbkdf2Block
  exact pbkdf2Iter_length pw _ _ _ (hmacSha1_length _ _)

theorem pbkdf2Blocks_length (pw salt : List Nat) (iter : Nat) : ∀ f idx : Nat,
    (pbkdf2Blocks pw salt iter f idx).length = 20 * f
  | 0, _ => rfl
  | f + 1, idx => by
    simp only [pbkdf2Blocks, List.length_append, pbkdf2Block_length,
      pbkdf2Blocks_length pw salt iter f (idx + 1)]
    ring

theorem pbkdf2_length (pw salt : List Nat) (iter dkLen : Nat) :
    (pbkdf2HmacSha1 pw salt iter dkLen).length = dkLen := by
  unfold pbkdf2HmacSha1
  rw [List.length_take, pbkdf2Blocks_length]
  omega

/-! ## getChromeEncryptionKey (src/unnamed/part_007 lines 82-107) -/

/-- ASCII bytes of the fixed Keychain service name Chrome Safe Storage,
    used by getChromeEncryptionKey (line 86) regardless of vendor. -/
def chromeSafeStorageName : List Nat :=
  [67, 104, 114, 111, 109, 101, 32, 83, 97, 102, 101, 32, 83, 116, 111, 114, 97, 103,
   101]

/-- ASCII bytes of the PBKDF2 salt saltysalt (line 102). -/
def saltysalt : List Nat := [115, 97, 108, 116, 121, 115, 97, 108, 116]

/-- JS whitespace for String.prototype.trim, at the byte level. -/
def isJsSpace (b : Nat) : Bool :=
  b == 9 || b == 10 || b == 11 || b == 12 || b == 13 || b == 32

/-- JS String.prototype.trim on bytes. -/
def jsTrim (l : List Nat) : List Nat :=
  ((l.dropWhile isJsSpace).reverse.dropWhile isJsSpace).reverse

/-- getChromeEncryptionKey (lines 82-107).  The keychain oracle maps a
    service name to the stdout bytes of the security tool; none models a
    nonzero exit code or a spawn failure.  An empty trimmed password also
    yields none; otherwise the key is derived with PBKDF2-HMAC-SHA1,
    salt saltysalt, 1003 iterations, 16 bytes. -/
def getChromeEncryptionKey (keychain : List Nat → Option (List Nat)) :
    Option (List Nat) :=
  match keychain chromeSafeStorageName with
  | none => none
  | some out =>
    let password := jsTrim out
    if password.isEmpty then none
    else some (pbkdf2HmacSha1 password saltysalt 1003 16)

/-- C7: the Chromium key derivation uses PBKDF2-HMAC-SHA1 with the fixed
    salt saltysalt and exactly 1003 iterations; the derived key always has
    exactly 16 bytes; and the result is deterministic in the stored
    password: two keychains agreeing on the Chrome Safe Storage entry give
    the same key. -/
theorem c7_key_derivation (keychain : List Nat → Option (List Nat)) (pw : List Nat) :
    (pbkdf2HmacSha1 pw saltysalt 1003 16).length = 16 ∧
    (∀ k, getChromeEncryptionKey keychain = some k → k.length = 16) ∧
    (∀ keychain2 : List Nat → Option (List Nat),
      keychain2 chromeSafeStorageName = keychain chromeSafeStorageName →
      getChromeEncryptionKey keychain2 = getChromeEncryptionKey keychain) ∧
    (∀ out, keychain chromeSafeStorageName = some out →
      (jsTrim out).isEmpty = false →
      getChromeEncryptionKey keychain =
        some (pbkdf2HmacSha1 (jsTrim out) saltysalt 1003 16)) := by
  refine ⟨pbkdf2_length pw saltysalt 1003 16, ?_, ?_, ?_⟩
  · intro k hk
    unfold getChromeEncryptionKey at hk
    cases hkc : keychain chromeSafeStorageName with
    | none => rw [hkc] at hk; exact absurd hk (by simp)
    | some out =>
      rw [hkc] at hk
      simp only at hk
      by_cases he : (jsTrim out).isEmpty
      · rw [if_pos he] at hk
        exact absurd hk (by simp)
      · rw [if_neg he] at hk
        rw [← Option.some.inj hk]
        exact pbkdf2_length _ _ _ _
  · intro keychain2 h
    unfold getChromeEncryptionKey
    rw [h]
  · intro out h hne
    unfold getChromeEncryptionKey
    rw [h]
    simp only [hne, Bool.false_eq_true, if_false]

/-- Witness for C7 at a concrete keychain holding the password pw. -/
theorem c7_key_derivation_witness :
    ((fun s => if s = chromeSafeStorageName then some ([112, 119] : List Nat) else none)
        chromeSafeStorageName = some [112, 119]) ∧
      (jsTrim [112, 119]).isEmpty = false ∧
      getChromeEncryptionKey
          (fun s => if s = chromeSafeStorageName then some [112, 119] else none) =
        some (pbkdf2HmacSha1 (jsTrim [112, 119]) saltysalt 1003 16) :=
  ⟨by simp, by decide,
    (c7_key_derivation
        (fun s => if s = chromeSafeStorageName then some [112, 119] else none) []).2.2.2
      [112, 119] (by simp) (by decide)⟩

/-! ## extractChromiumCookies (lines 181-237), extractFirefoxCookies
    (lines 266-316) -/

/-- The uniform cookie record produced by every extractor. -/
structure Cookie where
  name : List Nat
  value : List Nat
  domain : List Nat
  path : List Nat
  expires : Nat
deriving DecidableEq

/-- One row of the Chromium cookies table as returned by the query
    (lines 203-209). -/
structure ChromiumRow where
  name : List Nat
  encrypted_value : List Nat
  host_key : List Nat
  path : List Nat
  expires_utc : Nat
deriving DecidableEq

/-- Lifecycle events on the credential-bearing temporary database copy. -/
inductive TempEvent where
  | copy
  | unlink
deriving DecidableEq

/-- The host state one Chromium extraction run interacts with: whether the
    store file exists, the keychain oracle, whether the copy to /tmp
    succeeds, and the query result (none models a sqlite exception). -/
structure ChromiumEnv where
  dbExists : Bool
  keychain : List Nat → Option (List Nat)
  copyOk : Bool
  dbRows : Option (List ChromiumRow)

/-- The row loop of extractChromiumCookies (lines 211-224): decrypt each
    row and keep it only when the decrypted value is non-empty (JS
    truthiness of the string). -/
def chromiumRowsToCookies (key : List Nat) (rows : List ChromiumRow) : List Cookie :=
  rows.filterMap (fun r =>
    let v := decryptChromeCookie r.encrypted_value key
    if v.isEmpty then none
    else some ⟨r.name, v, r.host_key, r.path, r.expires_utc⟩)

/-- extractChromiumCookies (lines 181-237).  Returns the cookies plus the
    trace of temp-file events: the copy performed before the try block and
    the unlink performed in the finally block (so on the success path and
    on the sqlite-error path alike); a failed copy creates no file and
    returns before the try. -/
def extractChromiumCookies (env : ChromiumEnv) (domain : List Nat) :
    List Cookie × List TempEvent :=
  if !env.dbExists then ([], [])
  else
    match getChromeEncryptionKey env.keychain with
    | none => ([], [])
    | some key =>
      if !env.copyOk then ([], [])
      else
        let cookies :=
          match env.dbRows with
          | none => []
          | some rows =>
            chromiumRowsToCookies key (rows.filter (fun r => containsSub r.host_key domain))
        (cookies, [TempEvent.copy, TempEvent.unlink])

/-- One row of the Firefox moz_cookies table (lines 288-292), stored in
    the clear. -/
structure FirefoxRow where
  name : List Nat
  value : List Nat
  host : List Nat
  path : List Nat
  expiry : Nat
deriving DecidableEq

/-- Host state of one Firefox extraction run. -/
structure FirefoxEnv where
  profileFound : Bool
  dbExists : Bool
  copyOk : Bool
  dbRows : Option (List FirefoxRow)

/-- extractFirefoxCookies (lines 266-316): same copy/unlink discipline as
    the Chromium extractor, no decryption. -/
def extractFirefoxCookies (env : FirefoxEnv) (domain : List Nat) :
    List Cookie × List TempEvent :=
  if !env.profileFound then ([], [])
  else if !env.dbExists then ([], [])
  else if !env.copyOk then ([], [])
  else
    let cookies :=
      match env.dbRows with
      | none => []
      | some rows =>
        (rows.filter (fun r => containsSub r.host domain)).map
          (fun r => Cookie.mk r.name r.value r.host r.path r.expiry)
    (cookies, [TempEvent.copy, TempEvent.unlink])

theorem extractChromium_events (env : ChromiumEnv) (d : List Nat) :
    (extractChromiumCookies env d).2 = [] ∨
    (extractChromiumCookies env d).2 = [TempEvent.copy, TempEvent.unlink] := by
  unfold extractChromiumCookies
  cases env.dbExists
  · simp
  · cases getChromeEncryptionKey env.keychain
    · simp
    · cases env.copyOk <;> simp

theorem extractFirefox_events (env : FirefoxEnv) (d : List Nat) :
    (extractFirefoxCookies env d).2 = [] ∨
    (extractFirefoxCookies env d).2 = [TempEvent.copy, TempEvent.unlink] := by
  unfold extractFirefoxCookies
  cases env.profileFound
  · simp
  · cases env.dbExists
    · simp
    · cases env.copyOk <;> simp

/-- C9: in both SQLite extractors, whenever the temporary copy of the
    locked cookie store is made, the very trace of temp-file events ends
    with its deletion, on the success path and on every error path: the
    event trace is either empty (no copy was made) or exactly copy
    followed by unlink. -/
theorem c9_temp_file_cleanup (cenv : ChromiumEnv) (fenv : FirefoxEnv) (d1 d2 : List Nat) :
    ((extractChromiumCookies cenv d1).2 = [] ∨
      (extractChromiumCookies cenv d1).2 = [TempEvent.copy, TempEvent.unlink]) ∧
    (TempEvent.copy ∈ (extractChromiumCookies cenv d1).2 →
      (extractChromiumCookies cenv d1).2.getLast? = some TempEvent.unlink) ∧
    ((extractFirefoxCookies fenv d2).2 = [] ∨
      (extractFirefoxCookies fenv d2).2 = [TempEvent.copy, TempEvent.unlink]) ∧
    (TempEvent.copy ∈ (extractFirefoxCookies fenv d2).2 →
      (extractFirefoxCookies fenv d2).2.getLast? = some TempEvent.unlink) := by
  refine ⟨extractChromium_events cenv d1, ?_, extractFirefox_events fenv d2, ?_⟩
  · intro hmem
    rcases extractChromium_events cenv d1 with h | h
    · rw [h] at hmem
      exact absurd hmem (by simp)
    · rw [h]
      rfl
  · intro hmem
    rcases extractFirefox_events fenv d2 with h | h
    · rw [h] at hmem
      exact absurd hmem (by simp)
    · rw [h]
      rfl

/-- Witness for C9 at a concrete environment that copies successfully. -/
theorem c9_temp_file_cleanup_witness :
    TempEvent.copy ∈ (extractChromiumCookies
        ⟨true, fun _ => some [112, 119], true, some []⟩ []).2 ∧
    (extractChromiumCookies ⟨true, fun _ => some [112, 119], true, some []⟩ []).2.getLast? =
      some TempEvent.unlink :=
  ⟨by decide, (c9_temp_file_cleanup ⟨true, fun _ => some [112, 119], true, some []⟩
      ⟨true, true, true, some []⟩ [] []).2.1 (by decide)⟩

/-- Any v10-marked value whose payload is not a whole number of blocks
    makes the decipher throw, so decryptChromeCookie yields the empty
    value, for every key. -/
theorem decryptChromeCookie_shortData (ev key : List Nat) (h3 : ¬ ev.length < 3)
    (hv : ev.take 3 = v10marker) (hm : (ev.drop 3).length % 16 ≠ 0) :
    decryptChromeCookie ev key = [] := by
  unfold decryptChromeCookie
  rw [if_neg h3, if_neg (by simp [hv])]
  by_cases hk : key.length ≠ 16
  · rw [if_pos hk]
  · rw [if_neg hk, if_pos hm]

/-- C10: a row whose value fails to decrypt (decryptChromeCookie yields
    the empty value) is dropped by the row loop, so inserting such a row
    anywhere in the queried table leaves both the row-loop output and the
    whole extraction result unchanged: at the public interface it is
    indistinguishable from an absent cookie, and extraction continues
    without error. -/
theorem c10_failed_decrypt_invisible (key : List Nat) (pre post : List ChromiumRow)
    (r : ChromiumRow) (dbE cOk : Bool) (kc : List Nat → Option (List Nat)) (d : List Nat)
    (hr : decryptChromeCookie r.encrypted_value key = [])
    (hkc : ∀ k, getChromeEncryptionKey kc = some k →
      decryptChromeCookie r.encrypted_value k = []) :
    chromiumRowsToCookies key (pre ++ r :: post) = chromiumRowsToCookies key (pre ++ post) ∧
    extractChromiumCookies ⟨dbE, kc, cOk, some (pre ++ r :: post)⟩ d =
      extractChromiumCookies ⟨dbE, kc, cOk, some (pre ++ post)⟩ d := by
  have hdrop : ∀ k : List Nat, decryptChromeCookie r.encrypted_value k = [] →
      ∀ rows pre2 : List ChromiumRow,
      chromiumRowsToCookies k (pre2 ++ r :: rows) = chromiumRowsToCookies k (pre2 ++ rows) := by
    intro k hk rows pre2
    unfold chromiumRowsToCookies
    rw [List.filterMap_append, List.filterMap_append, List.filterMap_cons]
    simp [hk]
  refine ⟨hdrop key hr post pre, ?_⟩
  unfold extractChromiumCookies
  cases dbE
  · rfl
  · cases hgk : getChromeEncryptionKey kc
    · rfl
    · cases cOk
      · simp
      · simp only [Bool.not_true, Bool.false_eq_true, if_false]
        rw [List.filter_append, List.filter_append, List.filter_cons]
        by_cases hdom : containsSub r.host_key d
        · simp only [hdom, if_true]
          rw [show List.filter (fun rr => containsSub rr.host_key d) pre ++
              r :: List.filter (fun rr => containsSub rr.host_key d) post =
              List.filter (fun rr => containsSub rr.host_key d) pre ++
              (r :: List.filter (fun rr => containsSub rr.host_key d) post) from rfl]
          rw [hdrop _ (hkc _ hgk) _ _]
        · simp [hdom]

/-- Witness for C10 at a concrete row whose value is v10-marked but one
    byte long, so every key fails to decrypt it. -/
theorem c10_failed_decrypt_invisible_witness :
    decryptChromeCookie [118, 49, 48, 1] iv16 = [] ∧
    chromiumRowsToCookies iv16 ([] ++ ChromiumRow.mk [1] [118, 49, 48, 1] [2] [3] 0 :: []) =
      chromiumRowsToCookies iv16 ([] ++ []) ∧
    extractChromiumCookies ⟨true, fun _ => none, true,
        some ([] ++ ChromiumRow.mk [1] [118, 49, 48, 1] [2] [3] 0 :: [])⟩ [] =
      extractChromiumCookies ⟨true, fun _ => none, true, some ([] ++ [])⟩ [] := by
  refine ⟨by decide, ?_, ?_⟩
  · exact (c10_failed_decrypt_invisible iv16 [] [] (ChromiumRow.mk [1] [118, 49, 48, 1] [2] [3] 0)
      true true (fun _ => none) [] (by decide)
      (fun k hk => decryptChromeCookie_shortData _ k (by decide) (by decide) (by decide))).1
  · exact (c10_failed_decrypt_invisible iv16 [] [] (ChromiumRow.mk [1] [118, 49, 48, 1] [2] [3] 0)
      true true (fun _ => none) [] (by decide)
      (fun k hk => decryptChromeCookie_shortData _ k (by decide) (by decide) (by decide))).2

/-- Modelled from the spec words of C4: the per-vendor service name
    <Vendor> Safe Storage the claim says each vendor uses. -/
def vendorServiceName (vendor : List Nat) : List Nat :=
  vendor ++ [32, 83, 97, 102, 101, 32, 83, 116, 111, 114, 97, 103, 101]

/-- ASCII bytes of Brave. -/
def braveVendor : List Nat := [66, 114, 97, 118, 101]

/-- C4 counterexample: a keychain that holds exactly the Brave Safe
    Storage entry.  The claim says the Brave extractor reads that entry;
    the code queries only Chrome Safe Storage, so key retrieval fails and
    a Brave extraction with decryptable rows yields the empty result. -/
theorem c4_counterexample :
    (fun s => if s = vendorServiceName braveVendor then some ([112, 119] : List Nat)
        else none) (vendorServiceName braveVendor) = some [112, 119] ∧
    vendorServiceName braveVendor ≠ chromeSafeStorageName ∧
    getChromeEncryptionKey (fun s => if s = vendorServiceName braveVendor
        then some ([112, 119] : List Nat) else none) = none ∧
    extractChromiumCookies ⟨true,
        (fun s => if s = vendorServiceName braveVendor then some [112, 119] else none),
        true, some [ChromiumRow.mk [97] [98] [120] [47] 0]⟩ [120] = ([], []) := by
  refine ⟨by simp, by decide, by decide, by decide⟩

/-- C4 (amended): every Chromium-family vendor obtains its decryption
    secret under the single fixed service name Chrome Safe Storage: the
    extraction result depends on the keychain only through that entry, and
    when that lookup is unavailable or refused the extraction yields the
    empty result rather than an error. -/
theorem c4_fixed_service_name (dbE cOk : Bool) (rows : Option (List ChromiumRow))
    (kc kc2 : List Nat → Option (List Nat)) (d : List Nat) :
    (kc chromeSafeStorageName = kc2 chromeSafeStorageName →
      extractChromiumCookies ⟨dbE, kc, cOk, rows⟩ d =
        extractChromiumCookies ⟨dbE, kc2, cOk, rows⟩ d) ∧
    (kc chromeSafeStorageName = none →
      extractChromiumCookies ⟨dbE, kc, cOk, rows⟩ d = ([], [])) := by
  constructor
  · intro h
    unfold extractChromiumCookies
    have : getChromeEncryptionKey kc = getChromeEncryptionKey kc2 := by
      unfold getChromeEncryptionKey
      rw [h]
    rw [this]
  · intro h
    have hnone : getChromeEncryptionKey kc = none := by
      unfold getChromeEncryptionKey
      rw [h]
    unfold extractChromiumCookies
    rw [hnone]
    cases dbE <;> rfl

/-- Witness for C4 (amended) at two concrete keychains agreeing on the
    Chrome entry, one of them empty. -/
theorem c4_fixed_service_name_witness :
    ((fun _ : List Nat => (none : Option (List Nat))) chromeSafeStorageName =
      (fun s => if s = vendorServiceName braveVendor then some [112, 119] else none)
        chromeSafeStorageName ∧
     extractChromiumCookies ⟨true, (fun _ => none), true, some []⟩ [] =
       extractChromiumCookies ⟨true,
         (fun s => if s = vendorServiceName braveVendor then some [112, 119] else none),
         true, some []⟩ []) ∧
    ((fun _ : List Nat => (none : Option (List Nat))) chromeSafeStorageName = none ∧
     extractChromiumCookies ⟨true, (fun _ => none), true, some []⟩ [] = ([], [])) :=
  ⟨⟨by decide, (c4_fixed_service_name true true (some []) (fun _ => none)
      (fun s => if s = vendorServiceName braveVendor then some [112, 119] else none)
      []).1 (by decide)⟩,
   ⟨rfl, (c4_fixed_service_name true true (some []) (fun _ => none)
      (fun s => if s = vendorServiceName braveVendor then some [112, 119] else none)
      []).2 rfl⟩⟩

/-! ## extractSafariCookies (src/unnamed/part_007 lines 322-420) -/

/-- The 4-byte magic cook of the WebKit binary cookie container. -/
def cookMagic : List Nat := [99, 111, 111, 107]

/-- readString (lines 386-391): scan forward from the offset until a null
    byte or end of file; an offset at or past end of file yields the empty
    string. -/
def readCString (data : List Nat) (start : Nat) : List Nat :=
  (data.drop start).takeWhile (fun b => b != 0)

/-- One cookie record (lines 375-410): the four string offsets are read at
    record-relative bytes 16, 20, 24, 28; a RangeError on any of these
    reads is caught and skips the record (none).  The cookie is kept only
    when its domain contains the target substring. -/
def parseSafariRecord (data domain : List Nat) (cookieStart : Nat) : Option Cookie :=
  match readU32LE data (cookieStart + 16), readU32LE data (cookieStart + 20),
      readU32LE data (cookieStart + 24), readU32LE data (cookieStart + 28) with
  | some urlOff, some nameOff, some pathOff, some valueOff =>
    let cookieDomain := readCString data (cookieStart + urlOff)
    let name := readCString data (cookieStart + nameOff)
    let path := readCString data (cookieStart + pathOff)
    let value := readCString data (cookieStart + valueOff)
    if containsSub cookieDomain domain then
      some ⟨name, value, cookieDomain, path, 0⟩
    else none
  | _, _, _, _ => none

/-- Read count consecutive little-endian 32-bit values; none on the first
    out-of-bounds read. -/
def readU32LEList (data : List Nat) : Nat → Nat → Option (List Nat)
  | 0, _ => some []
  | n + 1, off =>
    match readU32LE data off with
    | none => none
    | some v =>
      match readU32LEList data n (off + 4) with
      | none => none
      | some vs => some (v :: vs)

/-- Read count consecutive big-endian 32-bit values; none on the first
    out-of-bounds read. -/
def readU32BEList (data : List Nat) : Nat → Nat → Option (List Nat)
  | 0, _ => some []
  | n + 1, off =>
    match readU32BE data off with
    | none => none
    | some v =>
      match readU32BEList data n (off + 4) with
      | none => none
      | some vs => some (v :: vs)

/-- The page loop (lines 352-414).  A page whose 4-byte little-endian
    header is not 0x00000100 contributes nothing and the scan moves to the
    next page.  An out-of-bounds read of the page header, the cookie count
    or a cookie offset raises, and the outer catch ends the scan, keeping
    the cookies already collected. -/
def processSafariPages (data domain : List Nat) : Nat → List Nat → List Cookie
  | _, [] => []
  | offset, size :: rest =>
    match readU32LE data offset with
    | none => []
    | some header =>
      if header ≠ 256 then processSafariPages data domain (offset + size) rest
      else
        match readU32LE data (offset + 4) with
        | none => []
        | some numCookies =>
          match readU32LEList data numCookies (offset + 8) with
          | none => []
          | some cookieOffsets =>
            cookieOffsets.filterMap (fun co => parseSafariRecord data domain (offset + co))
              ++ processSafariPages data domain (offset + size) rest

/-- extractSafariCookies (lines 322-420): magic check, big-endian page
    count, page size table, then the page loop. -/
def extractSafariCookies (data domain : List Nat) : List Cookie :=
  if data.take 4 ≠ cookMagic then []
  else
    match readU32BE data 4 with
    | none => []
    | some numPages =>
      match readU32BEList data numPages 8 with
      | none => []
      | some pageSizes => processSafariPages data domain (8 + 4 * numPages) pageSizes

/-- A well-formed single-page buffer: magic, one page with header
    0x00000100, one record with domain x.com, name auth_token, path /,
    value abc123, every string null-terminated. -/
def safariBufOk : List Nat :=
  [99, 111, 111, 107, 0, 0, 0, 1, 0, 0, 0, 70, 0, 1, 0, 0, 1, 0, 0, 0, 12, 0, 0, 0,
   0, 0, 0, 0, 0, 0, 0, 0, 0, 0, 0, 0, 0, 0, 0, 0, 32, 0, 0, 0, 38, 0, 0, 0, 49, 0,
   0, 0, 51, 0, 0, 0, 120, 46, 99, 111, 109, 0, 97, 117, 116, 104, 95, 116, 111, 107,
   101, 110, 0, 47, 0, 97, 98, 99, 49, 50, 51, 0]

/-- The same buffer with the final null terminator of the value string
    removed: the value string now has no terminator before end of file. -/
def safariBufNoTerm : List Nat :=
  [99, 111, 111, 107, 0, 0, 0, 1, 0, 0, 0, 70, 0, 1, 0, 0, 1, 0, 0, 0, 12, 0, 0, 0,
   0, 0, 0, 0, 0, 0, 0, 0, 0, 0, 0, 0, 0, 0, 0, 0, 32, 0, 0, 0, 38, 0, 0, 0, 49, 0,
   0, 0, 51, 0, 0, 0, 120, 46, 99, 111, 109, 0, 97, 117, 116, 104, 95, 116, 111, 107,
   101, 110, 0, 47, 0, 97, 98, 99, 49, 50, 51]

/-- ASCII x.com, the domain filter used in the shape obligations. -/
def xcomBytes : List Nat := [120, 46, 99, 111, 109]

/-- C6: shape behaviour of the WebKit parser.  A buffer without the cook
    magic yields zero cookies; the concrete well-formed one-page buffer
    yields exactly its one record with the four expected fields; and a
    page whose header is not 0x00000100 contributes zero records while the
    scan of the remaining pages continues. -/
theorem c6_webkit_parser_shape :
    (∀ data domain : List Nat, data.take 4 ≠ cookMagic →
      extractSafariCookies data domain = []) ∧
    extractSafariCookies safariBufOk xcomBytes =
      [⟨[97, 117, 116, 104, 95, 116, 111, 107, 101, 110], [97, 98, 99, 49, 50, 51],
        [120, 46, 99, 111, 109], [47], 0⟩] ∧
    (∀ data domain : List Nat, ∀ offset size header : Nat, ∀ rest : List Nat,
      readU32LE data offset = some header → header ≠ 256 →
      processSafariPages data domain offset (size :: rest) =
        processSafariPages data domain (offset + size) rest) := by
  refine ⟨?_, by decide, ?_⟩
  · intro data domain h
    unfold extractSafariCookies
    rw [if_pos h]
  · intro data domain offset size header rest hread hheader
    conv_lhs => unfold processSafariPages
    rw [hread]
    exact if_pos hheader

/-- Witness for C6: the magic test refused on a concrete 4-byte buffer,
    and a concrete bad-header page skipped with the following good page
    still parsed. -/
theorem c6_webkit_parser_shape_witness :
    (([1, 2, 3, 4] : List Nat).take 4 ≠ cookMagic ∧
      extractSafariCookies [1, 2, 3, 4] xcomBytes = []) ∧
    (readU32LE [9, 9, 9, 9] 0 = some 151587081 ∧ (151587081 : Nat) ≠ 256 ∧
      processSafariPages [9, 9, 9, 9] xcomBytes 0 [4] =
        processSafariPages [9, 9, 9, 9] xcomBytes 4 []) :=
  ⟨⟨by decide, c6_webkit_parser_shape.1 [1, 2, 3, 4] xcomBytes (by decide)⟩,
    ⟨by decide, by decide,
      c6_webkit_parser_shape.2.2 [9, 9, 9, 9] xcomBytes 0 4 151587081 [] (by decide)
        (by decide)⟩⟩

/-- C5 counterexample: in safariBufNoTerm the value string has no null
    terminator before end of file, yet the record is not skipped: the
    parser returns it with the value truncated at end of file. -/
theorem c5_counterexample :
    extractSafariCookies safariBufNoTerm xcomBytes =
      [⟨[97, 117, 116, 104, 95, 116, 111, 107, 101, 110], [97, 98, 99, 49, 50, 51],
        [120, 46, 99, 111, 109], [47], 0⟩] ∧
    safariBufNoTerm.length = 81 ∧
    (∀ b ∈ safariBufNoTerm.drop 75, b ≠ 0) ∧
    extractSafariCookies safariBufNoTerm xcomBytes ≠ [] := by
  refine ⟨by decide, by decide, by decide, by decide⟩

theorem takeWhile_nonzero_eq_self : ∀ l : List Nat, (∀ b ∈ l, b ≠ 0) →
    l.takeWhile (fun b => b != 0) = l
  | [], _ => rfl
  | x :: l, h => by
    have hx : (x != 0) = true := by
      simp only [bne_iff_ne]
      exact h x (by simp)
    simp only [List.takeWhile_cons, hx, if_true]
    rw [takeWhile_nonzero_eq_self l (fun b hb => h b (by simp [hb]))]

/-- C5 (amended): a record whose four offset-field reads lie out of bounds
    is skipped, contributing no cookie, and the remaining records of the
    page parse exactly as if it were absent; but a string with no null
    terminator before end of file does not skip the record: the string is
    read through to end of file, and a string offset at or past end of
    file yields the empty string. -/
theorem c5_malformed_records (data domain : List Nat) (offset co start : Nat)
    (cos : List Nat) (cookieStart : Nat) :
    (parseSafariRecord data domain (offset + co) = none →
      List.filterMap (fun c => parseSafariRecord data domain (offset + c)) (co :: cos) =
        List.filterMap (fun c => parseSafariRecord data domain (offset + c)) cos) ∧
    ((readU32LE data (cookieStart + 16) = none ∨ readU32LE data (cookieStart + 20) = none ∨
      readU32LE data (cookieStart + 24) = none ∨ readU32LE data (cookieStart + 28) = none) →
      parseSafariRecord data domain cookieStart = none) ∧
    ((∀ b ∈ data.drop start, b ≠ 0) → readCString data start = data.drop start) ∧
    (data.length ≤ start → readCString data start = []) := by
  refine ⟨?_, ?_, ?_, ?_⟩
  · intro h
    simp [List.filterMap_cons, h]
  · intro h
    unfold parseSafariRecord
    rcases h with h | h | h | h
    · rw [h]
    · cases h1 : readU32LE data (cookieStart + 16) <;> rw [h]
    · cases h1 : readU32LE data (cookieStart + 16) <;>
        cases h2 : readU32LE data (cookieStart + 20) <;> rw [h]
    · cases h1 : readU32LE data (cookieStart + 16) <;>
        cases h2 : readU32LE data (cookieStart + 20) <;>
        cases h3 : readU32LE data (cookieStart + 24) <;> rw [h]
  · intro h
    unfold readCString
    exact takeWhile_nonzero_eq_self _ h
  · intro h
    unfold readCString
    rw [List.drop_eq_nil_of_le h]
    rfl

/-- Witness for C5 (amended): a record at the end of a tiny buffer is
    skipped; a 2-byte tail with no terminator is read whole; an offset
    past end of file reads the empty string. -/
theorem c5_malformed_records_witness :
    (parseSafariRecord [7] xcomBytes (0 + 0) = none ∧
      List.filterMap (fun c => parseSafariRecord [7] xcomBytes (0 + c)) ([0] : List Nat) =
        List.filterMap (fun c => parseSafariRecord [7] xcomBytes (0 + c)) []) ∧
    (readU32LE [7] (0 + 16) = none ∧ parseSafariRecord [7] xcomBytes 0 = none) ∧
    ((∀ b ∈ ([9, 9] : List Nat).drop 0, b ≠ 0) ∧ readCString [9, 9] 0 = [9, 9]) ∧
    (([9, 9] : List Nat).length ≤ 5 ∧ readCString [9, 9] 5 = []) :=
  ⟨⟨by decide, (c5_malformed_records [7] xcomBytes 0 0 0 [] 0).1 (by decide)⟩,
    ⟨by decide, (c5_malformed_records [7] xcomBytes 0 0 0 [] 0).2.1 (Or.inl (by decide))⟩,
    ⟨by decide, (c5_malformed_records [9, 9] xcomBytes 0 0 0 [] 0).2.2.1 (by decide)⟩,
    ⟨by decide, (c5_malformed_records [9, 9] xcomBytes 0 0 5 [] 0).2.2.2 (by decide)⟩⟩

/-! ## extractTwitterCookies (src/unnamed/part_007 lines 425-487) -/

/-- ASCII Chrome. -/
def chromeName : List Nat := [67, 104, 114, 111, 109, 101]

/-- ASCII Arc. -/
def arcName : List Nat := [65, 114, 99]

/-- ASCII Edge. -/
def edgeName : List Nat := [69, 100, 103, 101]

/-- ASCII Chromium. -/
def chromiumName : List Nat := [67, 104, 114, 111, 109, 105, 117, 109]

/-- ASCII Firefox. -/
def firefoxName : List Nat := [70, 105, 114, 101, 102, 111, 120]

/-- ASCII Safari. -/
def safariName : List Nat := [83, 97, 102, 97, 114, 105]

/-- ASCII auth_token. -/
def authTokenName : List Nat := [97, 117, 116, 104, 95, 116, 111, 107, 101, 110]

/-- ASCII ct0. -/
def ct0Name : List Nat := [99, 116, 48]

/-- The two accepted domain substrings, ASCII twitter and x.com
    (line 429). -/
def twitterDomains : List (List Nat) := [[116, 119, 105, 116, 116, 101, 114], xcomBytes]

/-- The credential pair assembled on success. -/
structure TwitterCookies where
  auth_token : List Nat
  ct0 : List Nat
deriving DecidableEq

/-- The success test applied to one extraction attempt (lines 445-448):
    look up the first cookie named auth_token and the first named ct0; the
    attempt matches only when both exist with non-empty values (JS
    truthiness of the optional-chained string). -/
def tokensOf (cookies : List Cookie) : Option TwitterCookies :=
  match cookies.find? (fun c => c.name == authTokenName),
      cookies.find? (fun c => c.name == ct0Name) with
  | some ca, some ct =>
    if ca.value.isEmpty || ct.value.isEmpty then none
    else some ⟨ca.value, ct.value⟩
  | _, _ => none

/-- The host state the aggregator runs against: the detected profile
    cookie-store paths per Chromium vendor (abstract path handles, in
    detection order), and the result of each extractor call.
    chromiumExtract p d stands for the cookie list component of
    extractChromiumCookies on the store at p with domain filter d, and the
    other two fields for extractFirefoxCookies and extractSafariCookies. -/
structure AggEnv where
  chromePaths : List Nat
  arcPaths : List Nat
  bravePaths : List Nat
  edgePaths : List Nat
  chromiumPaths : List Nat
  chromiumExtract : Nat → List Nat → List Cookie
  firefoxExtract : List Nat → List Cookie
  safariExtract : List Nat → List Cookie

/-- extractTwitterCookies (lines 425-487): the nested loops with early
    return are the nested first-some searches; Chromium vendors in the
    fixed order Chrome, Arc, Brave, Edge, Chromium, every detected profile
    of a vendor before the next vendor, both domains per profile; then
    Firefox, then Safari; null when nothing matches. -/
def extractTwitterCookies (env : AggEnv) : Option (TwitterCookies × List Nat) :=
  let browserChecks : List (List Nat × List Nat) :=
    [(chromeName, env.chromePaths), (arcName, env.arcPaths),
     (braveVendor, env.bravePaths), (edgeName, env.edgePaths),
     (chromiumName, env.chromiumPaths)]
  match browserChecks.findSome? (fun bc =>
      bc.2.findSome? (fun p =>
        twitterDomains.findSome? (fun d =>
          (tokensOf (env.chromiumExtract p d)).map (fun tc => (tc, bc.1))))) with
  | some r => some r
  | none =>
    match twitterDomains.findSome? (fun d =>
        (tokensOf (env.firefoxExtract d)).map (fun tc => (tc, firefoxName))) with
    | some r => some r
    | none =>
      twitterDomains.findSome? (fun d =>
        (tokensOf (env.safariExtract d)).map (fun tc => (tc, safariName)))

/-- Modelled from the spec words of C1: the flat ordered list of all
    extraction attempts the aggregator is specified to try, each paired
    with its source display name. -/
def aggAttempts (env : AggEnv) : List (List Cookie × List Nat) :=
  ([(chromeName, env.chromePaths), (arcName, env.arcPaths),
    (braveVendor, env.bravePaths), (edgeName, env.edgePaths),
    (chromiumName, env.chromiumPaths)].flatMap (fun bc =>
      bc.2.flatMap (fun p =>
        twitterDomains.map (fun d => (env.chromiumExtract p d, bc.1)))))
  ++ twitterDomains.map (fun d => (env.firefoxExtract d, firefoxName))
  ++ twitterDomains.map (fun d => (env.safariExtract d, safariName))

/-- Modelled from the spec words of C1: return the first attempt whose
    cookie list carries both required cookies non-empty, paired with its
    source name; none when no attempt does. -/
def aggregatorSpec (env : AggEnv) : Option (TwitterCookies × List Nat) :=
  (aggAttempts env).findSome? (fun a => (tokensOf a.1).map (fun tc => (tc, a.2)))

theorem match_option_or (x : Option α) (y : Option α) :
    (match x with | some r => some r | none => y) = x.or y := by
  cases x <;> rfl

theorem findSome?_flatMap (l : List α) (g : α → List β) (f : β → Option γ) :
    (l.flatMap g).findSome? f = l.findSome? (fun x => (g x).findSome? f) := by
  induction l with
  | nil => rfl
  | cons a l ih =>
    rw [List.flatMap_cons, List.findSome?_append, ih, List.findSome?_cons]
    cases (g a).findSome? f <;> simp [Option.or]

/-- C1: the aggregator equals its specification: the attempts are tried in
    the fixed order Chromium vendors (Chrome, Arc, Brave, Edge, Chromium;
    all detected profiles of a vendor, and both accepted domain substrings
    per profile, before the next vendor) then Gecko then WebKit; the first
    attempt yielding both required cookies non-empty is returned with its
    source display name; a partial match is a non-match; and when no
    attempt yields both, the result is none rather than an error. -/
theorem c1_aggregator_first_match (env : AggEnv) :
    extractTwitterCookies env = aggregatorSpec env := by
  simp only [extractTwitterCookies, aggregatorSpec, aggAttempts]
  rw [List.findSome?_append, List.findSome?_append, findSome?_flatMap]
  simp only [findSome?_flatMap, List.findSome?_map, Function.comp_def]
  split
  next r h => rw [h]; rfl
  next h =>
    rw [h]
    split
    next r h2 => rw [h2]; rfl
    next h2 => rw [h2]; rfl
